import Mathlib

/-!
# density-waves: the galaxy generator of `src/script.js`

A shallow embedding of the one source file of the repository and the
properties of it that the specification states.

Modelling conventions

* JavaScript numbers (and the cells of a `Float32Array`) are the elements of a
  linearly ordered field `α`; the transcendental functions come from a record
  `JSMath α` that stands for the `Math` object.  Rounding, `NaN` and the
  infinities are outside the model, so a theorem that divides states that the
  divisor is not zero, and a statement that a result is finite and not zero
  bounds the exact value between `MIN_VALUE` and `MAX_VALUE`, the smallest and
  the largest positive double.
* `Math.random()` is a stream `rng : Nat → α`; the number of calls made so far
  is threaded through the code as a cursor.
* Objects made by `new` get a fresh identifier; a reference to an object is its
  identifier.  Calls to `dispose`, `scene.remove` and `scene.add` are recorded
  in an event list.
* A `Float32Array` of length `n` is a list of `n` cells, all zero at first; a
  write outside the bounds is ignored, as it is for a typed array.
-/

namespace DensityWaves

/-! ## The `Math` object and `THREE.Color` -/

/-- The members of `Math` that the script calls (`Math.random` apart). -/
structure JSMath (α : Type) where
  sin : α → α
  cos : α → α
  exp : α → α
  log : α → α
  sqrt : α → α
  PI : α

/-- An RGB triple: `THREE.Color` with colour management switched off (line 5),
so that the channels of `new THREE.Color(hex)` are the bytes divided by 255. -/
structure Color (α : Type) where
  r : α
  g : α
  b : α
deriving DecidableEq, Repr

variable {α : Type} [LinearOrderedField α]

/-- The method `Color.lerp(color, alpha)` of three.js: `this.c += (color.c - this.c) * alpha`
on each channel; `alpha` is not clamped. -/
def Color.lerp (self color : Color α) (alpha : α) : Color α :=
  { r := self.r + (color.r - self.r) * alpha
    g := self.g + (color.g - self.g) * alpha
    b := self.b + (color.b - self.b) * alpha }

/-! ## Utils (lines 11-23) -/

/-- Lines 11-16.  Reads two values of the random stream, at `cursor` and at
`cursor + 1`, and returns the result together with the advanced cursor. -/
def generateSingleLogNormalDistance (M : JSMath α) (rng : Nat → α) (cursor : Nat)
    (mu sigma : α) : α × Nat :=
  let u := rng cursor
  let logNormal := M.exp (mu + sigma * M.sqrt (-2 * M.log u))
  let x := 1 / logNormal
  (if rng (cursor + 1) < 0.5 then x else -x, cursor + 2)

/-- Lines 18-23 (no call site in the script). -/
def randomHalfGaussian (M : JSMath α) (rng : Nat → α) (cursor : Nat) (std : α) : α × Nat :=
  let standardNormal :=
    M.sqrt (-2 * M.log (rng cursor)) * M.cos (2 * M.PI * rng (cursor + 1))
  (|standardNormal * std|, cursor + 2)

/-! ## Parameters (lines 41-53) -/

/-- The blending modes of three.js. -/
inductive Blending where
  | NoBlending
  | NormalBlending
  | AdditiveBlending
  | SubtractiveBlending
  | MultiplyBlending
  | CustomBlending
deriving DecidableEq, Repr

/-- The record `params`.  `count` and `branches` are natural numbers: the panel
gives them the ranges 100..1000000 (step 100) and 1..50 (step 1). -/
structure Params (α : Type) where
  instantControls : Bool
  count : Nat
  size : α
  blending : Blending
  lerp : α
  branches : Nat
  randomness : α
  sigma : α
  mu : α
  insideColor : Color α
  outsideColor : Color α

/-- The initial value of `params` (lines 41-53). -/
def params : Params α :=
  { instantControls := false
    count := 300000
    size := 40
    blending := Blending.AdditiveBlending
    lerp := 2
    branches := 20
    randomness := 2
    sigma := 1.75
    mu := 1.0
    insideColor := { r := 255 / 255, g := 96 / 255, b := 48 / 255 }
    outsideColor := { r := 27 / 255, g := 57 / 255, b := 132 / 255 } }

/-! ## The attribute loop (lines 68-118) -/

/-- The six typed arrays allocated on lines 68-73. -/
inductive Attr where
  | positions
  | radii
  | axisTilt
  | colors
  | scales
  | randomness
deriving DecidableEq, Repr

/-- Allocated length of each array, as a multiple of `params.count`. -/
def Attr.size (count : Nat) : Attr → Nat
  | Attr.positions => count * 3
  | Attr.radii => count
  | Attr.axisTilt => count
  | Attr.colors => count * 3
  | Attr.scales => count
  | Attr.randomness => count * 3

/-- State of the loop: the arrays, the list of cell writes performed so far
(array, index and value stored, in program order) and the random cursor. -/
structure LoopState (α : Type) where
  arrays : Attr → List α
  writes : List (Attr × Nat × α)
  cursor : Nat

/-- The assignment `a[j] = v`. -/
def LoopState.write (st : LoopState α) (a : Attr) (j : Nat) (v : α) : LoopState α :=
  { st with
    arrays := Function.update st.arrays a ((st.arrays a).set j v)
    writes := st.writes ++ [(a, j, v)] }

/-- The random cursor after some calls of `Math.random()`. -/
def LoopState.withCursor (st : LoopState α) (cursor : Nat) : LoopState α :=
  { st with cursor := cursor }

/-- Lines 78-80. -/
def possibleTilts (M : JSMath α) (params : Params α) : List α :=
  (List.range params.branches).map fun (i : Nat) =>
    ((i : α) * M.PI * 2) / (params.branches : α)

/-- One iteration of the loop, lines 82-117. -/
def loopBody (M : JSMath α) (params : Params α) (rng : Nat → α)
    (colorInside colorOutside : Color α) (tilts : List α)
    (st : LoopState α) (i : Nat) : LoopState α :=
  let i3 := i * 3
  let radius : α := ((i % params.branches : Nat) : α) / 10
  let st := st.write Attr.radii i radius
  -- Position
  let st := st.write Attr.positions i3 (1.5 * M.sin (i : α) * radius)
  let st := st.write Attr.positions (i3 + 1) 0
  let st := st.write Attr.positions (i3 + 2) (M.cos (i : α) * radius)
  -- Axis tilt
  let st := st.write Attr.axisTilt i (tilts.getD (i % params.branches) 0)
  -- Randomness
  let dX := generateSingleLogNormalDistance M rng st.cursor params.mu params.sigma
  let randomX := dX.1 * params.randomness
  let dY := generateSingleLogNormalDistance M rng dX.2 params.mu params.sigma
  let randomY := dY.1 * params.randomness
  let dZ := generateSingleLogNormalDistance M rng dY.2 params.mu params.sigma
  let randomZ := dZ.1 * params.randomness
  let st := st.withCursor dZ.2
  let st := st.write Attr.randomness i3 randomX
  let st := st.write Attr.randomness (i3 + 1) randomY
  let st := st.write Attr.randomness (i3 + 2) randomZ
  -- Color
  let mixedColor := colorInside
  let lerpFactor := radius / params.lerp
  let mixedColor := mixedColor.lerp colorOutside lerpFactor
  let st := st.write Attr.colors i3 mixedColor.r
  let st := st.write Attr.colors (i3 + 1) mixedColor.g
  let st := st.write Attr.colors (i3 + 2) mixedColor.b
  -- Scale
  let st := st.write Attr.scales i (rng st.cursor)
  st.withCursor (st.cursor + 1)

/-- Lines 68-118: allocation of the six arrays and the loop over
`i = 0, ..., params.count - 1`. -/
def generateAttributes (M : JSMath α) (params : Params α) (rng : Nat → α)
    (cursor : Nat) : LoopState α :=
  let colorInside := params.insideColor
  let colorOutside := params.outsideColor
  (List.range params.count).foldl
    (loopBody M params rng colorInside colorOutside (possibleTilts M params))
    { arrays := fun a => List.replicate (a.size params.count) 0
      writes := []
      cursor := cursor }

/-! ## Scene objects and module state (lines 36, 54-56, 119-197, 259, 273) -/

/-- The object `new THREE.BufferAttribute(array, itemSize)`. -/
structure BufferAttribute (α : Type) where
  array : List α
  itemSize : Nat

/-- The geometry with the six attributes set on lines 119-127, under the names
the vertex shader declares. -/
structure BufferGeometry (α : Type) where
  id : Nat
  position : BufferAttribute α
  color : BufferAttribute α
  aScale : BufferAttribute α
  aRandomness : BufferAttribute α
  aRadii : BufferAttribute α
  axisTilt : BufferAttribute α

/-- The shader material of lines 130-193; the two shader sources are constant
strings and are left out, the uniforms are kept. -/
structure ShaderMaterial (α : Type) where
  id : Nat
  depthWrite : Bool
  blending : Blending
  vertexColors : Bool
  uSize : α
  uTime : α

/-- The object `new THREE.Points(geometry, material)`: holds references to both. -/
structure Points where
  id : Nat
  geometry : Nat
  material : Nat
deriving DecidableEq, Repr

/-- What the script adds to the scene. -/
inductive Object3D where
  | camera
  | points (p : Points)
deriving DecidableEq, Repr

/-- Whether a child of the scene is a points drawable. -/
def Object3D.isPoints : Object3D → Bool
  | Object3D.camera => false
  | Object3D.points _ => true

/-- The observable calls on scene resources. -/
inductive Event where
  | disposeGeometry (id : Nat)
  | disposeMaterial (id : Nat)
  | sceneRemove (id : Nat)
  | sceneAdd (id : Nat)
deriving DecidableEq, Repr

/-- The module-level state that `generateGalaxy` reads and writes: the three
variables of lines 54-56, the children of `scene`, the pixel ratio held by
`renderer`, the number of `Math.random()` calls made so far, the next fresh
object identifier and the events so far. -/
structure World (α : Type) where
  geometry : Option (BufferGeometry α)
  material : Option (ShaderMaterial α)
  points : Option Points
  scene : List Object3D
  pixelRatio : α
  cursor : Nat
  nextId : Nat
  events : List Event

/-- The call `geometry?.dispose()`. -/
def World.disposeGeometry (w : World α) : World α :=
  match w.geometry with
  | some g => { w with events := w.events ++ [Event.disposeGeometry g.id] }
  | none => w

/-- The call `material?.dispose()`. -/
def World.disposeMaterial (w : World α) : World α :=
  match w.material with
  | some m => { w with events := w.events ++ [Event.disposeMaterial m.id] }
  | none => w

/-- The call `scene.remove(p)`: takes the object out of the children if it is there. -/
def World.sceneRemove (w : World α) (p : Points) : World α :=
  { w with
    scene := w.scene.erase (Object3D.points p)
    events := w.events ++ [Event.sceneRemove p.id] }

/-- The call `scene.add(p)` for an object without a parent. -/
def World.sceneAdd (w : World α) (p : Points) : World α :=
  { w with
    scene := w.scene ++ [Object3D.points p]
    events := w.events ++ [Event.sceneAdd p.id] }

/-- The call `renderer.setPixelRatio(value)`. -/
def World.setPixelRatio (w : World α) (value : α) : World α :=
  { w with pixelRatio := value }

/-- Lines 59-64: the old galaxy is destroyed when `points` is not `null`. -/
def World.destroyOld (w : World α) : World α :=
  match w.points with
  | some old => ((w.disposeGeometry).disposeMaterial).sceneRemove old
  | none => w

/-- Lines 58-198. -/
def generateGalaxy (M : JSMath α) (params : Params α) (rng : Nat → α)
    (w : World α) : World α :=
  -- Destroy old galaxy
  let w := w.destroyOld
  -- Geometry
  let geometryId := w.nextId
  let st := generateAttributes M params rng w.cursor
  let geometry : BufferGeometry α :=
    { id := geometryId
      position := { array := st.arrays Attr.positions, itemSize := 3 }
      color := { array := st.arrays Attr.colors, itemSize := 3 }
      aScale := { array := st.arrays Attr.scales, itemSize := 1 }
      aRandomness := { array := st.arrays Attr.randomness, itemSize := 3 }
      aRadii := { array := st.arrays Attr.radii, itemSize := 1 }
      axisTilt := { array := st.arrays Attr.axisTilt, itemSize := 1 } }
  -- Material
  let material : ShaderMaterial α :=
    { id := geometryId + 1
      depthWrite := false
      blending := params.blending
      vertexColors := true
      uSize := params.size * w.pixelRatio
      uTime := 0 }
  -- Points
  let points : Points := { id := geometryId + 2, geometry := geometry.id, material := material.id }
  let w :=
    { w with
      geometry := some geometry
      material := some material
      points := some points
      cursor := st.cursor
      nextId := geometryId + 3 }
  w.sceneAdd points

/-- The state in which line 275 makes the first call of `generateGalaxy`: the
three variables are `null`, the scene holds the camera (line 259) and the
renderer has the pixel ratio set on line 273. -/
def initialWorld (devicePixelRatio : α) : World α :=
  World.setPixelRatio
    { geometry := none
      material := none
      points := none
      scene := [Object3D.camera]
      pixelRatio := 1
      cursor := 0
      nextId := 0
      events := [] }
    (min devicePixelRatio 2)

/-- The part of the resize handler (lines 232-244) that touches state read by
`generateGalaxy`: line 243. -/
def resize (devicePixelRatio : α) (w : World α) : World α :=
  w.setPixelRatio (min devicePixelRatio 2)

/-- A sequence of calls of `generateGalaxy`, one per parameter record, as the
panel triggers them. -/
def regenerate (M : JSMath α) (rng : Nat → α) (calls : List (Params α))
    (w : World α) : World α :=
  calls.foldl (fun w p => generateGalaxy M p rng w) w

/-! ## Auxiliary definitions for the statements -/

/-- The cell (array and index) that a recorded write goes to. -/
def writeCell (e : Attr × Nat × α) : Attr × Nat :=
  (e.1, e.2.1)

/-- The arrays obtained by performing the recorded writes `ws`, in order, on
the arrays `init`: each write stores its value in its cell. -/
def replay (ws : List (Attr × Nat × α)) (init : Attr → List α) : Attr → List α :=
  ws.foldl (fun arrays e => Function.update arrays e.1 ((arrays e.1).set e.2.1 e.2.2)) init

/-- The cells that iteration `i` of the loop assigns, in program order. -/
def iterWrites (i : Nat) : List (Attr × Nat) :=
  [(Attr.radii, i), (Attr.positions, i * 3), (Attr.positions, i * 3 + 1),
   (Attr.positions, i * 3 + 2), (Attr.axisTilt, i), (Attr.randomness, i * 3),
   (Attr.randomness, i * 3 + 1), (Attr.randomness, i * 3 + 2), (Attr.colors, i * 3),
   (Attr.colors, i * 3 + 1), (Attr.colors, i * 3 + 2), (Attr.scales, i)]

/-- The twelve cells of point `i` hold the values that iteration `i` computes
when the loop starts with the random cursor at `c0`. -/
def Filled (M : JSMath α) (p : Params α) (rng : Nat → α) (c0 : Nat)
    (arrays : Attr → List α) (i : Nat) : Prop :=
  (arrays Attr.radii)[i]? = some (((i % p.branches : Nat) : α) / 10) ∧
  (arrays Attr.positions)[i * 3]? =
    some (1.5 * M.sin (i : α) * (((i % p.branches : Nat) : α) / 10)) ∧
  (arrays Attr.positions)[i * 3 + 1]? = some 0 ∧
  (arrays Attr.positions)[i * 3 + 2]? =
    some (M.cos (i : α) * (((i % p.branches : Nat) : α) / 10)) ∧
  (arrays Attr.axisTilt)[i]? = some ((possibleTilts M p).getD (i % p.branches) 0) ∧
  (arrays Attr.randomness)[i * 3]? =
    some ((generateSingleLogNormalDistance M rng (c0 + 7 * i) p.mu p.sigma).1 * p.randomness) ∧
  (arrays Attr.randomness)[i * 3 + 1]? =
    some ((generateSingleLogNormalDistance M rng (c0 + 7 * i + 2) p.mu p.sigma).1 *
      p.randomness) ∧
  (arrays Attr.randomness)[i * 3 + 2]? =
    some ((generateSingleLogNormalDistance M rng (c0 + 7 * i + 4) p.mu p.sigma).1 *
      p.randomness) ∧
  (arrays Attr.colors)[i * 3]? =
    some (p.insideColor.lerp p.outsideColor ((((i % p.branches : Nat) : α) / 10) / p.lerp)).r ∧
  (arrays Attr.colors)[i * 3 + 1]? =
    some (p.insideColor.lerp p.outsideColor ((((i % p.branches : Nat) : α) / 10) / p.lerp)).g ∧
  (arrays Attr.colors)[i * 3 + 2]? =
    some (p.insideColor.lerp p.outsideColor ((((i % p.branches : Nat) : α) / 10) / p.lerp)).b ∧
  (arrays Attr.scales)[i]? = some (rng (c0 + 7 * i + 6))

/-- The loop of `generateAttributes` after its first `k` iterations. -/
def loopPrefix (M : JSMath α) (p : Params α) (rng : Nat → α) (c0 k : Nat) : LoopState α :=
  (List.range k).foldl
    (loopBody M p rng p.insideColor p.outsideColor (possibleTilts M p))
    { arrays := fun a => List.replicate (a.size p.count) 0
      writes := []
      cursor := c0 }

/-- In the event list `l`, an occurrence of `e1` comes before an occurrence of `e2`. -/
def Before (e1 e2 : Event) (l : List Event) : Prop :=
  ∃ l1 l2 l3, l = l1 ++ e1 :: l2 ++ e2 :: l3

/-- The `Math` object over the real numbers. -/
noncomputable def realMath : JSMath ℝ :=
  { sin := Real.sin
    cos := Real.cos
    exp := Real.exp
    log := Real.log
    sqrt := Real.sqrt
    PI := Real.pi }

/-- The state after at least one call: the three variables hold the objects of
the last call, which carry the three identifiers just below `nextId`, and the
only points drawable in the scene is the one in `points`. -/
def Live (w : World α) : Prop :=
  ∃ g m q, w.geometry = some g ∧ w.material = some m ∧ w.points = some q ∧
    g.id + 3 = w.nextId ∧ m.id + 2 = w.nextId ∧ q.id + 1 = w.nextId ∧
    q.geometry = g.id ∧ q.material = m.id ∧
    w.scene.filter Object3D.isPoints = [Object3D.points q]

/-- The largest finite double, `Number.MAX_VALUE = (2 - 2^-52) * 2^1023`: a
result above it is `Infinity` in JavaScript. -/
noncomputable def MAX_VALUE : ℝ := 2 ^ 1024 - 2 ^ 971

/-- The smallest positive double, `Number.MIN_VALUE = 2^-1074`: every double in
`(0, 1)` is at least this, and a positive result that stays at or above it is
not rounded to `0`. -/
noncomputable def MIN_VALUE : ℝ := 1 / 2 ^ 1074

/-- A random stream whose draws are all `1 / 2`, for instantiating the statements. -/
noncomputable def halfStream : Nat → ℝ := fun _ => 1 / 2

/-! ## Lemmas on the loop -/

section Lemmas

set_option linter.unusedSectionVars false

theorem write_get (st : LoopState α) (a : Attr) (j : Nat) (v : α) (a' : Attr) (j' : Nat) :
    ((st.write a j v).arrays a')[j']? =
      if a' = a ∧ j' = j ∧ j < (st.arrays a).length then some v else (st.arrays a')[j']? := by
  unfold LoopState.write
  by_cases h : a' = a
  · subst h
    simp only [Function.update_same, List.getElem?_set, true_and]
    by_cases hj : j = j'
    · subst hj
      by_cases hl : j < (st.arrays a').length
      · simp [hl]
      · simp [hl, List.getElem?_eq_none (Nat.le_of_not_lt hl)]
    · have : ¬ j' = j := fun e => hj e.symm
      simp [hj, this]
  · simp [Function.update_noteq h, h]

@[simp] theorem write_length (st : LoopState α) (a : Attr) (j : Nat) (v : α) (a' : Attr) :
    ((st.write a j v).arrays a').length = (st.arrays a').length := by
  unfold LoopState.write
  by_cases h : a' = a
  · subst h; simp
  · simp [Function.update_noteq h]

@[simp] theorem write_cursor (st : LoopState α) (a : Attr) (j : Nat) (v : α) :
    (st.write a j v).cursor = st.cursor := rfl

@[simp] theorem write_writes (st : LoopState α) (a : Attr) (j : Nat) (v : α) :
    (st.write a j v).writes = st.writes ++ [(a, j, v)] := rfl

theorem nodup_of_count_le_one {β : Type} [BEq β] [LawfulBEq β] (l : List β)
    (h : ∀ a, l.count a ≤ 1) : l.Nodup := by
  induction l with
  | nil => simp
  | cons x xs ih =>
    rw [List.nodup_cons]
    constructor
    · intro hx
      have h1 := h x
      rw [List.count_cons_self] at h1
      have h2 := List.count_pos_iff.mpr hx
      omega
    · apply ih
      intro a
      have h1 := h a
      rw [List.count_cons] at h1
      omega

theorem replay_append (ws : List (Attr × Nat × α)) (e : Attr × Nat × α)
    (init : Attr → List α) :
    replay (ws ++ [e]) init =
      Function.update (replay ws init) e.1 ((replay ws init e.1).set e.2.1 e.2.2) := by
  simp [replay]

theorem replay_write (st : LoopState α) (a : Attr) (j : Nat) (v : α) (init : Attr → List α)
    (h : st.arrays = replay st.writes init) :
    (st.write a j v).arrays = replay (st.write a j v).writes init := by
  rw [write_writes, replay_append, ← h]
  rfl

theorem replay_withCursor (st : LoopState α) (c : Nat) (init : Attr → List α)
    (h : st.arrays = replay st.writes init) :
    (st.withCursor c).arrays = replay (st.withCursor c).writes init := h

theorem replay_length (ws : List (Attr × Nat × α)) (init : Attr → List α) (a : Attr) :
    (replay ws init a).length = (init a).length := by
  induction ws using List.reverseRecOn with
  | nil => rfl
  | append_singleton l e ih =>
    rw [replay_append]
    by_cases h : a = e.1
    · subst h; simp [ih]
    · simp [Function.update_noteq h, ih]

/-- When no cell is written twice and every write is inside its array, the
arrays after the writes hold, in the cell of each write, the value written. -/
theorem replay_get (ws : List (Attr × Nat × α)) (init : Attr → List α)
    (hnd : (ws.map writeCell).Nodup)
    (hin : ∀ e, e ∈ ws → e.2.1 < (init e.1).length) :
    ∀ e, e ∈ ws → (replay ws init e.1)[e.2.1]? = some e.2.2 := by
  induction ws using List.reverseRecOn with
  | nil => intro e he; simp at he
  | append_singleton l x ih =>
    intro e he
    rw [List.map_append, List.nodup_append] at hnd
    obtain ⟨hl, -, hdis⟩ := hnd
    rw [replay_append]
    rcases List.mem_append.mp he with he | he
    · have hx : writeCell e ≠ writeCell x := by
        intro hc
        exact hdis (List.mem_map_of_mem writeCell he) (by simp [hc])
      have ih' := ih hl (fun e' he' => hin e' (List.mem_append_left _ he')) e he
      by_cases h1 : e.1 = x.1
      · have h2 : x.2.1 ≠ e.2.1 := by
          intro hc
          exact hx (by simp [writeCell, h1, hc])
        rw [h1, Function.update_same, List.getElem?_set_ne h2, ← h1]
        exact ih'
      · rw [Function.update_noteq h1]
        exact ih'
    · simp only [List.mem_singleton] at he
      subst he
      have hlen : e.2.1 < (replay l init e.1).length := by
        rw [replay_length]
        exact hin e (by simp)
      rw [Function.update_same, List.getElem?_set_self hlen]

@[simp] theorem withCursor_arrays (st : LoopState α) (c : Nat) :
    (st.withCursor c).arrays = st.arrays := rfl

@[simp] theorem withCursor_writes (st : LoopState α) (c : Nat) :
    (st.withCursor c).writes = st.writes := rfl

@[simp] theorem withCursor_cursor (st : LoopState α) (c : Nat) :
    (st.withCursor c).cursor = c := rfl

theorem loopBody_cursor (M : JSMath α) (p : Params α) (rng : Nat → α) (ci co : Color α)
    (tilts : List α) (st : LoopState α) (i : Nat) :
    (loopBody M p rng ci co tilts st i).cursor = st.cursor + 7 := by
  simp [loopBody, generateSingleLogNormalDistance]

theorem loopBody_writes (M : JSMath α) (p : Params α) (rng : Nat → α) (ci co : Color α)
    (tilts : List α) (st : LoopState α) (i : Nat) :
    (loopBody M p rng ci co tilts st i).writes.map writeCell =
      st.writes.map writeCell ++ iterWrites i := by
  simp [loopBody, iterWrites, writeCell]

theorem loopBody_replay (M : JSMath α) (p : Params α) (rng : Nat → α) (ci co : Color α)
    (tilts : List α) (st : LoopState α) (i : Nat) (init : Attr → List α)
    (h : st.arrays = replay st.writes init) :
    (loopBody M p rng ci co tilts st i).arrays =
      replay (loopBody M p rng ci co tilts st i).writes init := by
  have w := fun (t : LoopState α) (a : Attr) (j : Nat) (v : α)
    (ht : t.arrays = replay t.writes init) => replay_write t a j v init ht
  have c := fun (t : LoopState α) (n : Nat)
    (ht : t.arrays = replay t.writes init) => replay_withCursor t n init ht
  unfold loopBody
  exact c _ _ (w _ _ _ _ (w _ _ _ _ (w _ _ _ _ (w _ _ _ _ (w _ _ _ _ (w _ _ _ _
    (w _ _ _ _ (c _ _ (w _ _ _ _ (w _ _ _ _ (w _ _ _ _ (w _ _ _ _
      (w _ _ _ _ h)))))))))))))

theorem loopBody_length (M : JSMath α) (p : Params α) (rng : Nat → α) (ci co : Color α)
    (tilts : List α) (st : LoopState α) (i : Nat) (a : Attr) :
    ((loopBody M p rng ci co tilts st i).arrays a).length = (st.arrays a).length := by
  simp [loopBody]

theorem loopBody_frame (M : JSMath α) (p : Params α) (rng : Nat → α) (ci co : Color α)
    (tilts : List α) (st : LoopState α) (i : Nat) (a : Attr) (j : Nat)
    (h : (a, j) ∉ iterWrites i) :
    ((loopBody M p rng ci co tilts st i).arrays a)[j]? = (st.arrays a)[j]? := by
  simp only [iterWrites, List.mem_cons, Prod.mk.injEq, List.mem_singleton, List.not_mem_nil,
    or_false, not_or, not_and] at h
  cases a <;> simp_all [loopBody, write_get]

theorem loopBody_filled (M : JSMath α) (p : Params α) (rng : Nat → α) (c0 : Nat)
    (st : LoopState α) (i : Nat)
    (hlen : ∀ a, (st.arrays a).length = a.size p.count) (hi : i < p.count)
    (hc : st.cursor = c0 + 7 * i) :
    Filled M p rng c0
      (loopBody M p rng p.insideColor p.outsideColor (possibleTilts M p) st i).arrays i := by
  have h0 : i * 3 < p.count * 3 := by omega
  have h1 : i * 3 + 1 < p.count * 3 := by omega
  have h2 : i * 3 + 2 < p.count * 3 := by omega
  unfold Filled
  refine ⟨?_, ?_, ?_, ?_, ?_, ?_, ?_, ?_, ?_, ?_, ?_, ?_⟩ <;>
    simp only [loopBody, generateSingleLogNormalDistance, write_get, write_length,
      write_cursor, withCursor_arrays, withCursor_cursor, hc, hlen, Attr.size] <;>
    simp [hi, h0, h1, h2]

theorem loopBody_filled_frame (M : JSMath α) (p : Params α) (rng : Nat → α) (c0 : Nat)
    (ci co : Color α) (tilts : List α) (st : LoopState α) (i k : Nat) (hne : i ≠ k)
    (h : Filled M p rng c0 st.arrays i) :
    Filled M p rng c0 (loopBody M p rng ci co tilts st k).arrays i := by
  unfold Filled at h ⊢
  obtain ⟨a1, a2, a3, a4, a5, a6, a7, a8, a9, a10, a11, a12⟩ := h
  refine ⟨?_, ?_, ?_, ?_, ?_, ?_, ?_, ?_, ?_, ?_, ?_, ?_⟩ <;>
    (rw [loopBody_frame] <;> first | assumption | (simp [iterWrites]; omega))

theorem loopPrefix_succ (M : JSMath α) (p : Params α) (rng : Nat → α) (c0 k : Nat) :
    loopPrefix M p rng c0 (k + 1) =
      loopBody M p rng p.insideColor p.outsideColor (possibleTilts M p)
        (loopPrefix M p rng c0 k) k := by
  simp [loopPrefix, List.range_succ]

/-- The loop invariant: after `k` iterations the cursor has advanced by `7 * k`,
the arrays keep their allocated lengths, the writes are those of iterations
`0, ..., k - 1` and the cells of the points below `k` are filled. -/
theorem loopPrefix_inv (M : JSMath α) (p : Params α) (rng : Nat → α) (c0 k : Nat)
    (hk : k ≤ p.count) :
    (loopPrefix M p rng c0 k).cursor = c0 + 7 * k ∧
    (∀ a, ((loopPrefix M p rng c0 k).arrays a).length = a.size p.count) ∧
    (loopPrefix M p rng c0 k).writes.map writeCell = (List.range k).flatMap iterWrites ∧
    ∀ i, i < k → Filled M p rng c0 (loopPrefix M p rng c0 k).arrays i := by
  induction k with
  | zero => simp [loopPrefix]
  | succ k ih =>
    obtain ⟨hc, hlen, hw, hf⟩ := ih (by omega)
    rw [loopPrefix_succ]
    refine ⟨?_, ?_, ?_, ?_⟩
    · rw [loopBody_cursor, hc]; ring
    · intro a; rw [loopBody_length, hlen]
    · rw [loopBody_writes, hw, List.range_succ, List.flatMap_append]; simp
    · intro i hi
      by_cases hik : i = k
      · subst hik
        exact loopBody_filled M p rng c0 _ i hlen (by omega) hc
      · exact loopBody_filled_frame M p rng c0 _ _ _ _ i k hik (hf i (by omega))

theorem generateAttributes_eq (M : JSMath α) (p : Params α) (rng : Nat → α) (c0 : Nat) :
    generateAttributes M p rng c0 = loopPrefix M p rng c0 p.count := rfl

theorem generateAttributes_cursor (M : JSMath α) (p : Params α) (rng : Nat → α) (c0 : Nat) :
    (generateAttributes M p rng c0).cursor = c0 + 7 * p.count :=
  (loopPrefix_inv M p rng c0 p.count (Nat.le_refl _)).1

theorem generateAttributes_length (M : JSMath α) (p : Params α) (rng : Nat → α) (c0 : Nat)
    (a : Attr) : ((generateAttributes M p rng c0).arrays a).length = a.size p.count :=
  (loopPrefix_inv M p rng c0 p.count (Nat.le_refl _)).2.1 a

theorem generateAttributes_writes (M : JSMath α) (p : Params α) (rng : Nat → α) (c0 : Nat) :
    (generateAttributes M p rng c0).writes.map writeCell =
      (List.range p.count).flatMap iterWrites :=
  (loopPrefix_inv M p rng c0 p.count (Nat.le_refl _)).2.2.1

theorem loopPrefix_replay (M : JSMath α) (p : Params α) (rng : Nat → α) (c0 k : Nat) :
    (loopPrefix M p rng c0 k).arrays =
      replay (loopPrefix M p rng c0 k).writes
        (fun a => List.replicate (a.size p.count) 0) := by
  induction k with
  | zero => rfl
  | succ k ih =>
    rw [loopPrefix_succ]
    exact loopBody_replay M p rng _ _ _ _ k _ ih

theorem generateAttributes_replay (M : JSMath α) (p : Params α) (rng : Nat → α) (c0 : Nat) :
    (generateAttributes M p rng c0).arrays =
      replay (generateAttributes M p rng c0).writes
        (fun a => List.replicate (a.size p.count) 0) :=
  loopPrefix_replay M p rng c0 p.count

theorem generateAttributes_filled (M : JSMath α) (p : Params α) (rng : Nat → α) (c0 : Nat)
    (i : Nat) (hi : i < p.count) :
    Filled M p rng c0 (generateAttributes M p rng c0).arrays i :=
  (loopPrefix_inv M p rng c0 p.count (Nat.le_refl _)).2.2.2 i hi

/-- Number of times the cell `(a, j)` is written by the first `k` iterations. -/
theorem count_writes (a : Attr) (j k : Nat) :
    ((List.range k).flatMap iterWrites).count (a, j) = if j < a.size k then 1 else 0 := by
  induction k with
  | zero => cases a <;> simp [Attr.size]
  | succ k ih =>
    rw [List.range_succ, List.flatMap_append, List.count_append, ih]
    cases a <;>
      simp [iterWrites, List.count_cons, Attr.size] <;>
      split_ifs <;> omega

/-! ## Lemmas on the module state -/

@[simp] theorem destroyOld_cursor (w : World α) : w.destroyOld.cursor = w.cursor := by
  unfold World.destroyOld World.sceneRemove World.disposeMaterial World.disposeGeometry
  cases w.points <;> cases w.geometry <;> cases w.material <;> rfl

@[simp] theorem destroyOld_nextId (w : World α) : w.destroyOld.nextId = w.nextId := by
  unfold World.destroyOld World.sceneRemove World.disposeMaterial World.disposeGeometry
  cases w.points <;> cases w.geometry <;> cases w.material <;> rfl

@[simp] theorem destroyOld_pixelRatio (w : World α) :
    w.destroyOld.pixelRatio = w.pixelRatio := by
  unfold World.destroyOld World.sceneRemove World.disposeMaterial World.disposeGeometry
  cases w.points <;> cases w.geometry <;> cases w.material <;> rfl

theorem generateGalaxy_geometry (M : JSMath α) (p : Params α) (rng : Nat → α) (w : World α) :
    (generateGalaxy M p rng w).geometry =
      some
        { id := w.nextId
          position := { array := (generateAttributes M p rng w.cursor).arrays Attr.positions,
                        itemSize := 3 }
          color := { array := (generateAttributes M p rng w.cursor).arrays Attr.colors,
                     itemSize := 3 }
          aScale := { array := (generateAttributes M p rng w.cursor).arrays Attr.scales,
                      itemSize := 1 }
          aRandomness := { array := (generateAttributes M p rng w.cursor).arrays Attr.randomness,
                           itemSize := 3 }
          aRadii := { array := (generateAttributes M p rng w.cursor).arrays Attr.radii,
                      itemSize := 1 }
          axisTilt := { array := (generateAttributes M p rng w.cursor).arrays Attr.axisTilt,
                        itemSize := 1 } } := by
  simp [generateGalaxy, World.sceneAdd]

theorem possibleTilts_getD (M : JSMath α) (p : Params α) (k : Nat) (hk : k < p.branches) :
    (possibleTilts M p).getD k 0 = ((k : α) * M.PI * 2) / (p.branches : α) := by
  rw [possibleTilts, List.getD_eq_getElem?_getD, List.getElem?_map, List.getElem?_range hk]
  rfl

theorem count_branch_origin (b N : Nat) (hb : 1 ≤ b) :
    Nat.count (fun i => i % b = 0) N = ⌈(N : ℚ) / (b : ℚ)⌉₊ := by
  have h := Nat.count_modEq_card_eq_ceil (b := N) (r := b) hb 0
  simp only [Nat.ModEq, Nat.zero_mod, Nat.cast_zero, sub_zero] at h
  have h0 : (0 : ℚ) ≤ (N : ℚ) / (b : ℚ) := by positivity
  rw [← Int.natCast_ceil_eq_ceil h0] at h
  exact_mod_cast h

/-- Two lists of `n` triples that agree on every cell of every triple are equal. -/
theorem ext_triples (l1 l2 : List α) (n : Nat) (h1 : l1.length = n * 3)
    (h2 : l2.length = n * 3)
    (h : ∀ i, i < n → l1[i * 3]? = l2[i * 3]? ∧ l1[i * 3 + 1]? = l2[i * 3 + 1]? ∧
      l1[i * 3 + 2]? = l2[i * 3 + 2]?) : l1 = l2 := by
  apply List.ext_getElem?
  intro j
  by_cases hj : j < n * 3
  · obtain ⟨a, b, c⟩ := h (j / 3) (by omega)
    have h3 : j % 3 = 0 ∨ j % 3 = 1 ∨ j % 3 = 2 := by omega
    rcases h3 with h3 | h3 | h3
    · have e : j = j / 3 * 3 := by omega
      rw [e]; exact a
    · have e : j = j / 3 * 3 + 1 := by omega
      rw [e]; exact b
    · have e : j = j / 3 * 3 + 2 := by omega
      rw [e]; exact c
  · rw [List.getElem?_eq_none (by omega), List.getElem?_eq_none (by omega)]

/-- Two lists of length `n` that agree on every cell are equal. -/
theorem ext_cells (l1 l2 : List α) (n : Nat) (h1 : l1.length = n) (h2 : l2.length = n)
    (h : ∀ i, i < n → l1[i]? = l2[i]?) : l1 = l2 := by
  apply List.ext_getElem?
  intro j
  by_cases hj : j < n
  · exact h j hj
  · rw [List.getElem?_eq_none (by omega), List.getElem?_eq_none (by omega)]

theorem before_append_right (e1 e2 : Event) (l l' : List Event) (h : Before e1 e2 l) :
    Before e1 e2 (l ++ l') := by
  obtain ⟨l1, l2, l3, rfl⟩ := h
  exact ⟨l1, l2, l3 ++ l', by simp⟩

theorem generateGalaxy_first (M : JSMath α) (p : Params α) (rng : Nat → α) (w : World α)
    (hp : w.points = none) (hs : w.scene.filter Object3D.isPoints = []) :
    Live (generateGalaxy M p rng w) ∧
      (generateGalaxy M p rng w).events = w.events ++ [Event.sceneAdd (w.nextId + 2)] := by
  simp [Live, generateGalaxy, World.destroyOld, hp, World.sceneAdd, hs, Object3D.isPoints]

theorem generateGalaxy_next (M : JSMath α) (p : Params α) (rng : Nat → α) (w : World α)
    (h : Live w) :
    Live (generateGalaxy M p rng w) ∧
      ∃ g m q, w.geometry = some g ∧ w.material = some m ∧ w.points = some q ∧
        (generateGalaxy M p rng w).events =
          w.events ++ [Event.disposeGeometry g.id, Event.disposeMaterial m.id,
            Event.sceneRemove q.id, Event.sceneAdd (w.nextId + 2)] := by
  obtain ⟨g, m, q, hg, hm, hq, i1, i2, i3, r1, r2, hs⟩ := h
  have herase : (w.scene.erase (Object3D.points q)).filter Object3D.isPoints = [] := by
    rw [← List.erase_filter, hs]
    simp
  refine ⟨?_, g, m, q, hg, hm, hq, ?_⟩
  · simp [Live, generateGalaxy, World.destroyOld, hq, World.sceneAdd, World.sceneRemove,
      World.disposeMaterial, World.disposeGeometry, hg, hm, herase, Object3D.isPoints]
  · simp [generateGalaxy, World.destroyOld, hq, World.sceneAdd, World.sceneRemove,
      World.disposeMaterial, World.disposeGeometry, hg, hm]

theorem regenerate_append (M : JSMath α) (rng : Nat → α) (l : List (Params α)) (a : Params α)
    (w : World α) :
    regenerate M rng (l ++ [a]) w = generateGalaxy M a rng (regenerate M rng l w) := by
  simp [regenerate]

theorem generateGalaxy_nextId (M : JSMath α) (p : Params α) (rng : Nat → α) (w : World α) :
    (generateGalaxy M p rng w).nextId = w.nextId + 3 := by
  simp [generateGalaxy, World.sceneAdd]

theorem regenerate_nextId (M : JSMath α) (rng : Nat → α) (calls : List (Params α))
    (w : World α) : (regenerate M rng calls w).nextId = w.nextId + 3 * calls.length := by
  induction calls using List.reverseRecOn with
  | nil => simp [regenerate]
  | append_singleton l a ih =>
    rw [regenerate_append, generateGalaxy_nextId, ih, List.length_append]
    simp; ring

/-- The invariant of repeated regeneration from the initial state. -/
theorem regenerate_inv (M : JSMath α) (rng : Nat → α) (d : α) (calls : List (Params α))
    (hn : 1 ≤ calls.length) :
    Live (regenerate M rng calls (initialWorld d)) ∧
    ∀ k, 1 ≤ k → k < calls.length →
      ∃ g m q,
        (regenerate M rng (calls.take k) (initialWorld d)).geometry = some g ∧
        (regenerate M rng (calls.take k) (initialWorld d)).material = some m ∧
        (regenerate M rng (calls.take k) (initialWorld d)).points = some q ∧
        q.id + 1 = 3 * k ∧
        Before (Event.disposeGeometry g.id) (Event.sceneRemove q.id)
          (regenerate M rng calls (initialWorld d)).events ∧
        Before (Event.disposeMaterial m.id) (Event.sceneRemove q.id)
          (regenerate M rng calls (initialWorld d)).events := by
  induction calls using List.reverseRecOn with
  | nil => simp at hn
  | append_singleton l a ih =>
    rw [regenerate_append]
    by_cases hl : l = []
    · subst hl
      refine ⟨?_, ?_⟩
      · exact (generateGalaxy_first M a rng _
          (by simp [regenerate, initialWorld, World.setPixelRatio])
          (by simp [regenerate, initialWorld, World.setPixelRatio, Object3D.isPoints])).1
      · intro k h1 h2
        simp at h2
        omega
    · have hlen : 1 ≤ l.length := by
        cases l with
        | nil => exact absurd rfl hl
        | cons x xs => simp
      obtain ⟨hlive, hprev⟩ := ih hlen
      obtain ⟨hlive', g, m, q, hg, hm, hq, hev⟩ := generateGalaxy_next M a rng _ hlive
      refine ⟨hlive', ?_⟩
      intro k h1 h2
      simp only [List.length_append, List.length_singleton] at h2
      by_cases hk : k < l.length
      · obtain ⟨g', m', q', e1, e2, e3, e4, b1, b2⟩ := hprev k h1 hk
        rw [List.take_append_of_le_length (by omega)]
        refine ⟨g', m', q', e1, e2, e3, e4, ?_, ?_⟩
        · rw [hev]; exact before_append_right _ _ _ _ b1
        · rw [hev]; exact before_append_right _ _ _ _ b2
      · have hk' : k = l.length := by omega
        subst hk'
        rw [List.take_append_of_le_length (Nat.le_refl _), List.take_length]
        obtain ⟨g0, m0, q0, hg0, hm0, hq0, -, -, i3, -⟩ := hlive
        rw [hg0] at hg
        rw [hm0] at hm
        rw [hq0] at hq
        cases hg
        cases hm
        cases hq
        have hid := regenerate_nextId M rng l (initialWorld d)
        refine ⟨g, m, q, hg0, hm0, hq0, ?_, ?_, ?_⟩
        · rw [i3, hid]; simp [initialWorld, World.setPixelRatio]
        · rw [hev]
          exact ⟨(regenerate M rng l (initialWorld d)).events, [Event.disposeMaterial m.id],
            [Event.sceneAdd ((regenerate M rng l (initialWorld d)).nextId + 2)], by simp⟩
        · rw [hev]
          exact ⟨(regenerate M rng l (initialWorld d)).events ++ [Event.disposeGeometry g.id],
            [], [Event.sceneAdd ((regenerate M rng l (initialWorld d)).nextId + 2)], by simp⟩

theorem generateGalaxy_material (M : JSMath α) (p : Params α) (rng : Nat → α) (w : World α) :
    (generateGalaxy M p rng w).material =
      some
        { id := w.nextId + 1
          depthWrite := false
          blending := p.blending
          vertexColors := true
          uSize := p.size * w.pixelRatio
          uTime := 0 } := by
  simp [generateGalaxy, World.sceneAdd]

theorem generateGalaxy_pixelRatio (M : JSMath α) (p : Params α) (rng : Nat → α)
    (w : World α) : (generateGalaxy M p rng w).pixelRatio = w.pixelRatio := by
  simp [generateGalaxy, World.sceneAdd]

theorem regenerate_pixelRatio (M : JSMath α) (rng : Nat → α) (calls : List (Params α))
    (w : World α) : (regenerate M rng calls w).pixelRatio = w.pixelRatio := by
  induction calls using List.reverseRecOn with
  | nil => simp [regenerate]
  | append_singleton l a ih => rw [regenerate_append, generateGalaxy_pixelRatio, ih]

theorem realDistance_eq (rng : Nat → ℝ) (c : Nat) (mu sigma : ℝ) :
    (generateSingleLogNormalDistance realMath rng c mu sigma).1 =
      if rng (c + 1) < 1 / 2 then
        1 / Real.exp (mu + sigma * Real.sqrt (-2 * Real.log (rng c)))
      else -(1 / Real.exp (mu + sigma * Real.sqrt (-2 * Real.log (rng c)))) := by
  have h : (0.5 : ℝ) = 1 / 2 := by norm_num
  simp only [generateSingleLogNormalDistance, realMath, h]

theorem log_MIN_VALUE_ge : -745 ≤ Real.log MIN_VALUE := by
  unfold MIN_VALUE
  rw [one_div, Real.log_inv, Real.log_pow]
  have := Real.log_two_lt_d9
  push_cast
  linarith

theorem exp_le_of_le_83 (x : ℝ) (hx : x ≤ 83) : Real.exp x ≤ 3 ^ 83 := by
  have h1 : Real.exp x ≤ Real.exp 83 := Real.exp_le_exp.mpr hx
  have h2 : Real.exp 83 = Real.exp 1 ^ 83 := by
    rw [← Real.exp_nat_mul]; norm_num
  have h3 : Real.exp 1 ≤ 3 := by
    have := Real.exp_one_lt_d9
    linarith
  calc Real.exp x ≤ Real.exp 1 ^ 83 := by rw [← h2]; exact h1
    _ ≤ 3 ^ 83 := pow_le_pow_left₀ (Real.exp_pos 1).le h3 83

/-- Range analysis of lines 12-14 for a first draw `u` that is a double in
`(0, 1)` and `mu`, `sigma` in the panel ranges: the logarithm is at least
`-745`, the square root at most `39`, the exponent at most `83`, so the
exponential stays below `MAX_VALUE` and its reciprocal above `MIN_VALUE`. -/
theorem range_of_draw (u mu sigma : ℝ) (hu : MIN_VALUE ≤ u) (hmu5 : mu ≤ 5)
    (hs2 : sigma ≤ 2) :
    -745 ≤ Real.log u ∧ Real.sqrt (-2 * Real.log u) ≤ 39 ∧
    mu + sigma * Real.sqrt (-2 * Real.log u) ≤ 83 ∧
    Real.exp (mu + sigma * Real.sqrt (-2 * Real.log u)) ≤ MAX_VALUE ∧
    MIN_VALUE ≤ 1 / Real.exp (mu + sigma * Real.sqrt (-2 * Real.log u)) := by
  have hmin : 0 < MIN_VALUE := by unfold MIN_VALUE; positivity
  have hlog : -745 ≤ Real.log u :=
    le_trans log_MIN_VALUE_ge (Real.log_le_log hmin hu)
  have hsqrt : Real.sqrt (-2 * Real.log u) ≤ 39 := by
    rw [Real.sqrt_le_iff]
    constructor
    · norm_num
    · linarith
  have harg : mu + sigma * Real.sqrt (-2 * Real.log u) ≤ 83 := by
    have := mul_le_mul hs2 hsqrt (Real.sqrt_nonneg _) (by norm_num : (0 : ℝ) ≤ 2)
    linarith
  have hexp := exp_le_of_le_83 _ harg
  refine ⟨hlog, hsqrt, harg, ?_, ?_⟩
  · refine le_trans hexp ?_
    unfold MAX_VALUE
    norm_num
  · unfold MIN_VALUE
    apply one_div_le_one_div_of_le (Real.exp_pos _)
    refine le_trans hexp ?_
    norm_num

/-- Outside the panel range the bound is lost: with `mu = 1000` and `sigma` not
negative the intermediate value `logNormal` exceeds `MAX_VALUE` for every first
draw, so the bounds on `mu` and `sigma` are needed. -/
theorem logNormal_overflow_at_1000 (u sigma : ℝ) (hs : 0 ≤ sigma) :
    MAX_VALUE < Real.exp (1000 + sigma * Real.sqrt (-2 * Real.log u)) := by
  have h1 : Real.exp 1000 ≤ Real.exp (1000 + sigma * Real.sqrt (-2 * Real.log u)) :=
    Real.exp_le_exp.mpr (le_add_of_nonneg_right (mul_nonneg hs (Real.sqrt_nonneg _)))
  have h2 : Real.exp 1000 = Real.exp 1 ^ 1000 := by
    rw [← Real.exp_nat_mul]; norm_num
  have h3 : (27 / 10 : ℝ) ≤ Real.exp 1 := by
    have := Real.exp_one_gt_d9
    linarith
  have h4 : (27 / 10 : ℝ) ^ 1000 ≤ Real.exp 1 ^ 1000 :=
    pow_le_pow_left₀ (by norm_num) h3 1000
  refine lt_of_lt_of_le ?_ h1
  rw [h2]
  refine lt_of_lt_of_le ?_ h4
  unfold MAX_VALUE
  norm_num

/-- The logarithm of the intermediate value `logNormal` of line 13, recovered
from the result `r = ± 1 / logNormal` as `ln(1 / |r|)`, is
`mu + sigma * sqrt(-2 ln u)` for the first draw `u`. -/
theorem log_of_logNormal (rng : Nat → ℝ) (c : Nat) (mu sigma : ℝ) :
    Real.log (1 / |(generateSingleLogNormalDistance realMath rng c mu sigma).1|) =
      mu + sigma * Real.sqrt (-2 * Real.log (rng c)) := by
  have hx : 0 < 1 / Real.exp (mu + sigma * Real.sqrt (-2 * Real.log (rng c))) :=
    one_div_pos.mpr (Real.exp_pos _)
  rw [realDistance_eq]
  split_ifs
  · rw [abs_of_pos hx, one_div_one_div, Real.log_exp]
  · rw [abs_neg, abs_of_pos hx, one_div_one_div, Real.log_exp]

theorem measurable_logLaw (mu sigma : ℝ) :
    Measurable (fun u : ℝ => mu + sigma * Real.sqrt (-2 * Real.log u)) := by
  exact ((Real.continuous_sqrt.measurable.comp
    (Real.measurable_log.const_mul (-2))).const_mul sigma).const_add mu

end Lemmas

/-! ## The claims of the specification -/

/-- C1: for every parameter record (any `count`, any `branches`) the geometry
made by `generateGalaxy` has a position, a colour and a randomness array of
length `3 * count` and a radius, a tilt and a scale array of length `count`,
and these are the arrays `st.arrays` that the loop leaves; the arrays are the
result of performing the loop's assignments `st.writes`, in order, on the
zero-filled arrays of lines 68-73; among these assignments every cell of each
array occurs exactly once and no index outside an array occurs; so each cell
ends with the value of the one assignment made to it. -/
theorem C1_lengths_and_single_writes (M : JSMath α) (p : Params α) (rng : Nat → α)
    (w : World α) :
    ∃ g st, (generateGalaxy M p rng w).geometry = some g ∧
      st = generateAttributes M p rng w.cursor ∧
      g.position.array = st.arrays Attr.positions ∧
      g.color.array = st.arrays Attr.colors ∧
      g.aRandomness.array = st.arrays Attr.randomness ∧
      g.aRadii.array = st.arrays Attr.radii ∧
      g.axisTilt.array = st.arrays Attr.axisTilt ∧
      g.aScale.array = st.arrays Attr.scales ∧
      g.position.array.length = 3 * p.count ∧
      g.color.array.length = 3 * p.count ∧
      g.aRandomness.array.length = 3 * p.count ∧
      g.aRadii.array.length = p.count ∧
      g.axisTilt.array.length = p.count ∧
      g.aScale.array.length = p.count ∧
      st.arrays = replay st.writes (fun a => List.replicate (a.size p.count) 0) ∧
      (∀ a j, (st.writes.map writeCell).count (a, j) =
        if j < (st.arrays a).length then 1 else 0) ∧
      (∀ a j v, (a, j, v) ∈ st.writes → (st.arrays a)[j]? = some v) := by
  have hcount : ∀ a j, ((generateAttributes M p rng w.cursor).writes.map writeCell).count (a, j) =
      if j < ((generateAttributes M p rng w.cursor).arrays a).length then 1 else 0 := by
    intro a j
    rw [generateAttributes_writes, generateAttributes_length, count_writes]
  refine ⟨_, _, generateGalaxy_geometry M p rng w, rfl, rfl, rfl, rfl, rfl, rfl, rfl,
    ?_, ?_, ?_, ?_, ?_, ?_, generateAttributes_replay M p rng w.cursor, hcount, ?_⟩
  · simp [generateAttributes_length, Attr.size, Nat.mul_comm]
  · simp [generateAttributes_length, Attr.size, Nat.mul_comm]
  · simp [generateAttributes_length, Attr.size, Nat.mul_comm]
  · simp [generateAttributes_length, Attr.size]
  · simp [generateAttributes_length, Attr.size]
  · simp [generateAttributes_length, Attr.size]
  · intro a j v hmem
    have hnd : ((generateAttributes M p rng w.cursor).writes.map writeCell).Nodup := by
      apply nodup_of_count_le_one
      rintro ⟨c1, c2⟩
      rw [hcount c1 c2]
      split_ifs <;> omega
    have hin : ∀ e, e ∈ (generateAttributes M p rng w.cursor).writes →
        e.2.1 < ((fun a => List.replicate (Attr.size p.count a) (0 : α)) e.1).length := by
      intro e he
      have hc := hcount e.1 e.2.1
      have hpos : 0 < ((generateAttributes M p rng w.cursor).writes.map writeCell).count
          (e.1, e.2.1) :=
        List.count_pos_iff.mpr (List.mem_map_of_mem writeCell he)
      rw [hc, generateAttributes_length] at hpos
      simp only [List.length_replicate]
      by_contra hlt
      rw [if_neg hlt] at hpos
      omega
    have := replay_get (generateAttributes M p rng w.cursor).writes
      (fun a => List.replicate (Attr.size p.count a) (0 : α)) hnd hin (a, j, v) hmem
    rw [← generateAttributes_replay] at this
    exact this

/-- C2: with `branches >= 1`, for every point `i < count` and every random
stream, `radii[i] = (i mod branches) / 10` and the position triple of point `i`
is `(1.5 * sin(i) * radii[i], 0, cos(i) * radii[i])`; the y component is `0`
whatever the random stream is. -/
theorem C2_radius_and_position (M : JSMath α) (p : Params α) (rng : Nat → α) (w : World α)
    (i : Nat) (_hb : 1 ≤ p.branches) (hi : i < p.count) :
    ∃ g r, (generateGalaxy M p rng w).geometry = some g ∧
      r = ((i % p.branches : Nat) : α) / 10 ∧
      g.aRadii.array[i]? = some r ∧
      g.position.array[3 * i]? = some (1.5 * M.sin (i : α) * r) ∧
      g.position.array[3 * i + 1]? = some 0 ∧
      g.position.array[3 * i + 2]? = some (M.cos (i : α) * r) := by
  obtain ⟨h1, h2, h3, h4, -⟩ := generateAttributes_filled M p rng w.cursor i hi
  rw [Nat.mul_comm] at h2 h3 h4
  exact ⟨_, _, generateGalaxy_geometry M p rng w, rfl, h1, h2, h3, h4⟩

/-- Instance of C2: the initial parameters and point 7. -/
theorem C2_radius_and_position_witness :
    (1 ≤ (params : Params ℝ).branches ∧ 7 < (params : Params ℝ).count) ∧
    ∃ g r,
      (generateGalaxy realMath params (fun _ => 1 / 2) (initialWorld 1)).geometry = some g ∧
      r = ((7 % (params : Params ℝ).branches : Nat) : ℝ) / 10 ∧
      g.aRadii.array[7]? = some r ∧
      g.position.array[3 * 7]? = some (1.5 * realMath.sin ((7 : Nat) : ℝ) * r) ∧
      g.position.array[3 * 7 + 1]? = some 0 ∧
      g.position.array[3 * 7 + 2]? = some (realMath.cos ((7 : Nat) : ℝ) * r) :=
  ⟨⟨by simp [params], by simp [params]⟩,
    C2_radius_and_position realMath params (fun _ => 1 / 2) (initialWorld 1) 7
      (by simp [params]) (by simp [params])⟩

/-- C3: over the real numbers, with `1 <= branches <= count` (which the
documented ranges 1..50 and 100..1000000 imply), `axisTilt[i]` is
`2 * pi * (i mod branches) / branches` for every point, the set of values in
the tilt array is `{2 * pi * k / branches : k < branches}`, and this set has
exactly `branches` elements. -/
theorem C3_axis_tilt_values (p : Params ℝ) (rng : Nat → ℝ) (w : World ℝ)
    (hb : 1 ≤ p.branches) (hN : p.branches ≤ p.count) :
    ∃ g, (generateGalaxy realMath p rng w).geometry = some g ∧
      (∀ i, i < p.count →
        g.axisTilt.array[i]? =
          some (2 * Real.pi * ((i % p.branches : Nat) : ℝ) / (p.branches : ℝ))) ∧
      {x | x ∈ g.axisTilt.array} =
        (fun k : Nat => 2 * Real.pi * (k : ℝ) / (p.branches : ℝ)) '' {k | k < p.branches} ∧
      Set.ncard {x | x ∈ g.axisTilt.array} = p.branches := by
  have hval : ∀ i, i < p.count →
      ((generateAttributes realMath p rng w.cursor).arrays Attr.axisTilt)[i]? =
        some (2 * Real.pi * ((i % p.branches : Nat) : ℝ) / (p.branches : ℝ)) := by
    intro i hi
    have h5 := (generateAttributes_filled realMath p rng w.cursor i hi).2.2.2.2.1
    rw [possibleTilts_getD realMath p _ (Nat.mod_lt _ hb)] at h5
    rw [h5]
    simp only [realMath]
    congr 1
    ring
  have hlen := generateAttributes_length realMath p rng w.cursor Attr.axisTilt
  simp only [Attr.size] at hlen
  have hset : {x | x ∈ (generateAttributes realMath p rng w.cursor).arrays Attr.axisTilt} =
      (fun k : Nat => 2 * Real.pi * (k : ℝ) / (p.branches : ℝ)) '' {k | k < p.branches} := by
    ext x
    simp only [Set.mem_setOf_eq, Set.mem_image]
    constructor
    · intro hx
      obtain ⟨i, hi⟩ := List.mem_iff_getElem?.mp hx
      have hi' : i < p.count := by
        by_contra hc
        rw [List.getElem?_eq_none (by omega)] at hi
        exact absurd hi (by simp)
      rw [hval i hi'] at hi
      exact ⟨i % p.branches, Nat.mod_lt _ hb, Option.some.inj hi⟩
    · rintro ⟨k, hk, rfl⟩
      apply List.mem_iff_getElem?.mpr
      refine ⟨k, ?_⟩
      rw [hval k (by omega), Nat.mod_eq_of_lt hk]
  refine ⟨_, generateGalaxy_geometry realMath p rng w, hval, hset, ?_⟩
  show Set.ncard {x | x ∈ (generateAttributes realMath p rng w.cursor).arrays Attr.axisTilt} = _
  rw [hset, Set.ncard_image_of_injOn]
  · have : {k | k < p.branches} = ((Finset.range p.branches : Finset Nat) : Set Nat) := by
      ext k; simp
    rw [this, Set.ncard_coe_Finset, Finset.card_range]
  · intro k1 _ k2 _ h
    have hb0 : (p.branches : ℝ) ≠ 0 := by
      have : (0 : ℝ) < (p.branches : ℝ) := by exact_mod_cast hb
      exact ne_of_gt this
    have hpi : (2 * Real.pi) ≠ 0 := by positivity
    simp only at h
    rw [div_left_inj' hb0] at h
    have := mul_left_cancel₀ hpi h
    exact_mod_cast this

/-- Instance of C3: the initial parameters, 20 branches and 300000 points. -/
theorem C3_axis_tilt_values_witness :
    (1 ≤ (params : Params ℝ).branches ∧
      (params : Params ℝ).branches ≤ (params : Params ℝ).count) ∧
    ∃ g, (generateGalaxy realMath params (fun _ => 1 / 2) (initialWorld 1)).geometry = some g ∧
      (∀ i, i < (params : Params ℝ).count →
        g.axisTilt.array[i]? =
          some (2 * Real.pi * ((i % (params : Params ℝ).branches : Nat) : ℝ) /
            ((params : Params ℝ).branches : ℝ))) ∧
      {x | x ∈ g.axisTilt.array} =
        (fun k : Nat => 2 * Real.pi * (k : ℝ) / ((params : Params ℝ).branches : ℝ)) ''
          {k | k < (params : Params ℝ).branches} ∧
      Set.ncard {x | x ∈ g.axisTilt.array} = (params : Params ℝ).branches :=
  ⟨⟨by simp [params], by simp [params]⟩,
    C3_axis_tilt_values params (fun _ => 1 / 2) (initialWorld 1)
      (by simp [params]) (by simp [params])⟩

/-- C4: with `branches >= 1` and `lerp > 0`, the colour cells of point `i` hold,
on each channel, `inside + (outside - inside) * (radius / lerp)` for the radius
of the point, without clamping: at radius `0` the colour is the inside colour,
at radius `lerp` it is the outside colour, and at a radius above `lerp` every
channel on which the two colours differ lies beyond the outside value, on the
side away from the inside value. -/
theorem C4_colour_interpolation (M : JSMath α) (p : Params α) (rng : Nat → α) (w : World α)
    (i : Nat) (_hb : 1 ≤ p.branches) (hl : 0 < p.lerp) (hi : i < p.count) :
    ∃ g r c, (generateGalaxy M p rng w).geometry = some g ∧
      g.aRadii.array[i]? = some r ∧
      g.color.array[3 * i]? = some c.r ∧
      g.color.array[3 * i + 1]? = some c.g ∧
      g.color.array[3 * i + 2]? = some c.b ∧
      c.r = p.insideColor.r + (p.outsideColor.r - p.insideColor.r) * (r / p.lerp) ∧
      c.g = p.insideColor.g + (p.outsideColor.g - p.insideColor.g) * (r / p.lerp) ∧
      c.b = p.insideColor.b + (p.outsideColor.b - p.insideColor.b) * (r / p.lerp) ∧
      (r = 0 → c = p.insideColor) ∧
      (r = p.lerp → c = p.outsideColor) ∧
      (p.lerp < r →
        (p.insideColor.r < p.outsideColor.r → p.outsideColor.r < c.r) ∧
        (p.outsideColor.r < p.insideColor.r → c.r < p.outsideColor.r) ∧
        (p.insideColor.g < p.outsideColor.g → p.outsideColor.g < c.g) ∧
        (p.outsideColor.g < p.insideColor.g → c.g < p.outsideColor.g) ∧
        (p.insideColor.b < p.outsideColor.b → p.outsideColor.b < c.b) ∧
        (p.outsideColor.b < p.insideColor.b → c.b < p.outsideColor.b)) := by
  obtain ⟨h1, -, -, -, -, -, -, -, h9, h10, h11, -⟩ :=
    generateAttributes_filled M p rng w.cursor i hi
  rw [Nat.mul_comm] at h9 h10 h11
  have hl0 : p.lerp ≠ 0 := ne_of_gt hl
  have up : ∀ x y r : α, x < y → p.lerp < r → y < x + (y - x) * (r / p.lerp) := by
    intro x y r hxy hr
    have h1 : 1 < r / p.lerp := by rw [lt_div_iff₀ hl]; linarith
    nlinarith
  have down : ∀ x y r : α, y < x → p.lerp < r → x + (y - x) * (r / p.lerp) < y := by
    intro x y r hxy hr
    have h1 : 1 < r / p.lerp := by rw [lt_div_iff₀ hl]; linarith
    nlinarith
  refine ⟨_, _, _, generateGalaxy_geometry M p rng w, h1, h9, h10, h11, rfl, rfl, rfl,
    ?_, ?_, ?_⟩
  · intro h0
    rw [h0]
    cases hc : p.insideColor
    simp [Color.lerp]
  · intro h0
    rw [h0]
    cases hc : p.outsideColor
    simp [Color.lerp, div_self hl0]
  · intro hr
    exact ⟨fun h => up _ _ _ h hr, fun h => down _ _ _ h hr, fun h => up _ _ _ h hr,
      fun h => down _ _ _ h hr, fun h => up _ _ _ h hr, fun h => down _ _ _ h hr⟩

/-- Instance of C4: the initial parameters and point 7. -/
theorem C4_colour_interpolation_witness :
    (1 ≤ (params : Params ℝ).branches ∧ 0 < (params : Params ℝ).lerp ∧
      7 < (params : Params ℝ).count) ∧
    ∃ g r c, (generateGalaxy realMath params (fun _ => 1 / 2) (initialWorld 1)).geometry =
        some g ∧
      g.aRadii.array[7]? = some r ∧
      g.color.array[3 * 7]? = some c.r ∧
      g.color.array[3 * 7 + 1]? = some c.g ∧
      g.color.array[3 * 7 + 2]? = some c.b ∧
      c.r = (params : Params ℝ).insideColor.r +
        ((params : Params ℝ).outsideColor.r - (params : Params ℝ).insideColor.r) *
          (r / (params : Params ℝ).lerp) ∧
      c.g = (params : Params ℝ).insideColor.g +
        ((params : Params ℝ).outsideColor.g - (params : Params ℝ).insideColor.g) *
          (r / (params : Params ℝ).lerp) ∧
      c.b = (params : Params ℝ).insideColor.b +
        ((params : Params ℝ).outsideColor.b - (params : Params ℝ).insideColor.b) *
          (r / (params : Params ℝ).lerp) ∧
      (r = 0 → c = (params : Params ℝ).insideColor) ∧
      (r = (params : Params ℝ).lerp → c = (params : Params ℝ).outsideColor) ∧
      ((params : Params ℝ).lerp < r →
        ((params : Params ℝ).insideColor.r < (params : Params ℝ).outsideColor.r →
          (params : Params ℝ).outsideColor.r < c.r) ∧
        ((params : Params ℝ).outsideColor.r < (params : Params ℝ).insideColor.r →
          c.r < (params : Params ℝ).outsideColor.r) ∧
        ((params : Params ℝ).insideColor.g < (params : Params ℝ).outsideColor.g →
          (params : Params ℝ).outsideColor.g < c.g) ∧
        ((params : Params ℝ).outsideColor.g < (params : Params ℝ).insideColor.g →
          c.g < (params : Params ℝ).outsideColor.g) ∧
        ((params : Params ℝ).insideColor.b < (params : Params ℝ).outsideColor.b →
          (params : Params ℝ).outsideColor.b < c.b) ∧
        ((params : Params ℝ).outsideColor.b < (params : Params ℝ).insideColor.b →
          c.b < (params : Params ℝ).outsideColor.b)) :=
  ⟨⟨by simp [params], by simp [params], by simp [params]⟩,
    C4_colour_interpolation realMath params (fun _ => 1 / 2) (initialWorld 1) 7
      (by simp [params]) (by simp [params]) (by simp [params])⟩

/-- C5: over the real numbers, for a first draw `u` that is a double in
`(0, 1)` (so `MIN_VALUE <= u < 1`), `mu` in `[0, 5]` and `sigma` in `[0, 2]`,
the result of `generateSingleLogNormalDistance` is `x` when the second draw `v`
is below `0.5` and `-x` otherwise, with `x = 1 / exp(mu + sigma * sqrt(-2 ln u))`.
Finite and not zero: every operation is applied inside its domain (`u > 0`,
`-2 ln u >= 0`, the divisor is not zero), the logarithm is at least `-745`, the
intermediate `logNormal` is at most `MAX_VALUE` (no `Infinity`), and the
magnitude of the result lies between `MIN_VALUE` and `1` (not rounded to `0`);
these bounds need the ranges of `mu` and `sigma`. The magnitude is a function
of `u` alone and the sign of `v` alone; for `v` uniform on `[0, 1)` the positive
and the negative results both have probability `1 / 2`. -/
theorem C5_signed_draw (rng : Nat → ℝ) (c : Nat) (mu sigma : ℝ)
    (humin : MIN_VALUE ≤ rng c) (hu1 : rng c < 1) (hmu : 0 ≤ mu) (hmu5 : mu ≤ 5)
    (hsigma : 0 ≤ sigma) (hsigma2 : sigma ≤ 2) :
    (rng (c + 1) < 0.5 →
      (generateSingleLogNormalDistance realMath rng c mu sigma).1 =
        1 / Real.exp (mu + sigma * Real.sqrt (-2 * Real.log (rng c)))) ∧
    (¬ rng (c + 1) < 0.5 →
      (generateSingleLogNormalDistance realMath rng c mu sigma).1 =
        -(1 / Real.exp (mu + sigma * Real.sqrt (-2 * Real.log (rng c))))) ∧
    0 ≤ -2 * Real.log (rng c) ∧
    Real.exp (mu + sigma * Real.sqrt (-2 * Real.log (rng c))) ≠ 0 ∧
    0 < 1 / Real.exp (mu + sigma * Real.sqrt (-2 * Real.log (rng c))) ∧
    1 / Real.exp (mu + sigma * Real.sqrt (-2 * Real.log (rng c))) ≤ 1 ∧
    -745 ≤ Real.log (rng c) ∧
    Real.exp (mu + sigma * Real.sqrt (-2 * Real.log (rng c))) ≤ MAX_VALUE ∧
    MIN_VALUE ≤ |(generateSingleLogNormalDistance realMath rng c mu sigma).1| ∧
    |(generateSingleLogNormalDistance realMath rng c mu sigma).1| ≤ MAX_VALUE ∧
    (generateSingleLogNormalDistance realMath rng c mu sigma).1 ≠ 0 ∧
    |(generateSingleLogNormalDistance realMath rng c mu sigma).1| =
      1 / Real.exp (mu + sigma * Real.sqrt (-2 * Real.log (rng c))) ∧
    (0 < (generateSingleLogNormalDistance realMath rng c mu sigma).1 ↔ rng (c + 1) < 0.5) ∧
    MeasureTheory.volume {v : ℝ | v ∈ Set.Ico (0 : ℝ) 1 ∧
        0 < (generateSingleLogNormalDistance realMath (Function.update rng (c + 1) v)
          c mu sigma).1} = ENNReal.ofReal (1 / 2) ∧
    MeasureTheory.volume {v : ℝ | v ∈ Set.Ico (0 : ℝ) 1 ∧
        (generateSingleLogNormalDistance realMath (Function.update rng (c + 1) v)
          c mu sigma).1 < 0} = ENNReal.ofReal (1 / 2) := by
  have h5 : (0.5 : ℝ) = 1 / 2 := by norm_num
  have hu0 : 0 < rng c := lt_of_lt_of_le (by unfold MIN_VALUE; positivity) humin
  obtain ⟨r1, -, -, r4, r5⟩ := range_of_draw (rng c) mu sigma humin hmu5 hsigma2
  have hmax : (1 : ℝ) ≤ MAX_VALUE := by unfold MAX_VALUE; norm_num
  have hlog : Real.log (rng c) < 0 := Real.log_neg hu0 hu1
  have hx : 0 < 1 / Real.exp (mu + sigma * Real.sqrt (-2 * Real.log (rng c))) :=
    one_div_pos.mpr (Real.exp_pos _)
  have harg : 0 ≤ mu + sigma * Real.sqrt (-2 * Real.log (rng c)) :=
    add_nonneg hmu (mul_nonneg hsigma (Real.sqrt_nonneg _))
  have hx1 : 1 / Real.exp (mu + sigma * Real.sqrt (-2 * Real.log (rng c))) ≤ 1 := by
    rw [div_le_one (Real.exp_pos _)]
    exact Real.one_le_exp harg
  have hc : c ≠ c + 1 := by omega
  have hpos : {v : ℝ | v ∈ Set.Ico (0 : ℝ) 1 ∧
      0 < (generateSingleLogNormalDistance realMath (Function.update rng (c + 1) v)
        c mu sigma).1} = Set.Ico 0 (1 / 2) := by
    ext v
    simp only [Set.mem_setOf_eq, Set.mem_Ico, realDistance_eq, Function.update_same,
      Function.update_noteq hc]
    constructor
    · rintro ⟨⟨h0, -⟩, h⟩
      refine ⟨h0, ?_⟩
      by_contra hv
      rw [if_neg hv] at h
      linarith
    · rintro ⟨h0, h⟩
      refine ⟨⟨h0, by linarith⟩, ?_⟩
      rw [if_pos h]
      exact hx
  have hneg : {v : ℝ | v ∈ Set.Ico (0 : ℝ) 1 ∧
      (generateSingleLogNormalDistance realMath (Function.update rng (c + 1) v)
        c mu sigma).1 < 0} = Set.Ico (1 / 2) 1 := by
    ext v
    simp only [Set.mem_setOf_eq, Set.mem_Ico, realDistance_eq, Function.update_same,
      Function.update_noteq hc]
    constructor
    · rintro ⟨⟨-, h1⟩, h⟩
      refine ⟨?_, h1⟩
      by_contra hv
      rw [if_pos (not_le.mp hv)] at h
      linarith
    · rintro ⟨h0, h1⟩
      refine ⟨⟨by linarith, h1⟩, ?_⟩
      rw [if_neg (not_lt.mpr h0)]
      linarith
  rw [realDistance_eq, h5]
  have habs : |if rng (c + 1) < 1 / 2 then
      1 / Real.exp (mu + sigma * Real.sqrt (-2 * Real.log (rng c)))
      else -(1 / Real.exp (mu + sigma * Real.sqrt (-2 * Real.log (rng c))))| =
      1 / Real.exp (mu + sigma * Real.sqrt (-2 * Real.log (rng c))) := by
    split_ifs
    · exact abs_of_pos hx
    · rw [abs_neg, abs_of_pos hx]
  refine ⟨fun h => if_pos h, fun h => if_neg h, by linarith, (Real.exp_pos _).ne', hx, hx1,
    r1, r4, ?_, ?_, ?_, habs, ?_, ?_, ?_⟩
  · rw [habs]; exact r5
  · rw [habs]; linarith
  · split_ifs <;> linarith
  · constructor
    · intro h
      by_contra hv
      rw [if_neg hv] at h
      linarith
    · intro h
      rw [if_pos h]
      exact hx
  · rw [hpos, Real.volume_Ico]; norm_num
  · rw [hneg, Real.volume_Ico]; norm_num

/-- Instance of C5: both draws `1 / 2`, `mu = 1` and `sigma = 1.75`. -/
theorem C5_signed_draw_witness :
    (MIN_VALUE ≤ halfStream 0 ∧ halfStream 0 < 1 ∧ (0 : ℝ) ≤ 1 ∧ (1 : ℝ) ≤ 5 ∧
      (0 : ℝ) ≤ 7 / 4 ∧ (7 / 4 : ℝ) ≤ 2) ∧
    ((halfStream (0 + 1) < 0.5 →
      (generateSingleLogNormalDistance realMath halfStream 0 1 (7 / 4)).1 =
        1 / Real.exp (1 + 7 / 4 * Real.sqrt (-2 * Real.log (halfStream 0)))) ∧
    (¬ halfStream (0 + 1) < 0.5 →
      (generateSingleLogNormalDistance realMath halfStream 0 1 (7 / 4)).1 =
        -(1 / Real.exp (1 + 7 / 4 * Real.sqrt (-2 * Real.log (halfStream 0))))) ∧
    0 ≤ -2 * Real.log (halfStream 0) ∧
    Real.exp (1 + 7 / 4 * Real.sqrt (-2 * Real.log (halfStream 0))) ≠ 0 ∧
    0 < 1 / Real.exp (1 + 7 / 4 * Real.sqrt (-2 * Real.log (halfStream 0))) ∧
    1 / Real.exp (1 + 7 / 4 * Real.sqrt (-2 * Real.log (halfStream 0))) ≤ 1 ∧
    -745 ≤ Real.log (halfStream 0) ∧
    Real.exp (1 + 7 / 4 * Real.sqrt (-2 * Real.log (halfStream 0))) ≤ MAX_VALUE ∧
    MIN_VALUE ≤ |(generateSingleLogNormalDistance realMath halfStream 0 1 (7 / 4)).1| ∧
    |(generateSingleLogNormalDistance realMath halfStream 0 1 (7 / 4)).1| ≤ MAX_VALUE ∧
    (generateSingleLogNormalDistance realMath halfStream 0 1 (7 / 4)).1 ≠ 0 ∧
    |(generateSingleLogNormalDistance realMath halfStream 0 1 (7 / 4)).1| =
      1 / Real.exp (1 + 7 / 4 * Real.sqrt (-2 * Real.log (halfStream 0))) ∧
    (0 < (generateSingleLogNormalDistance realMath halfStream 0 1 (7 / 4)).1 ↔
      halfStream (0 + 1) < 0.5) ∧
    MeasureTheory.volume {v : ℝ | v ∈ Set.Ico (0 : ℝ) 1 ∧
        0 < (generateSingleLogNormalDistance realMath (Function.update halfStream (0 + 1) v)
          0 1 (7 / 4)).1} = ENNReal.ofReal (1 / 2) ∧
    MeasureTheory.volume {v : ℝ | v ∈ Set.Ico (0 : ℝ) 1 ∧
        (generateSingleLogNormalDistance realMath (Function.update halfStream (0 + 1) v)
          0 1 (7 / 4)).1 < 0} = ENNReal.ofReal (1 / 2)) :=
  ⟨⟨by norm_num [halfStream, MIN_VALUE], by norm_num [halfStream], by norm_num, by norm_num,
      by norm_num, by norm_num⟩,
    C5_signed_draw halfStream 0 1 (7 / 4) (by norm_num [halfStream, MIN_VALUE])
      (by norm_num [halfStream]) (by norm_num) (by norm_num) (by norm_num) (by norm_num)⟩

/-- C6: from the initial state (`points = null`, the scene holding the camera),
after any sequence of `n >= 1` calls of `generateGalaxy` the scene holds exactly
one points drawable; it is the object in `points`, made by the last call (its
identifier is the last of the `3 * n` allocated, and it refers to the geometry
and the material in the variables `geometry` and `material`); for every earlier
call `k` the geometry and the material of that call were disposed before its
drawable was removed from the scene, and that drawable is no longer in the
scene. -/
theorem C6_single_live_drawable (M : JSMath α) (rng : Nat → α) (d : α)
    (calls : List (Params α)) (hn : 1 ≤ calls.length) :
    (∃ g m q,
      (regenerate M rng calls (initialWorld d)).geometry = some g ∧
      (regenerate M rng calls (initialWorld d)).material = some m ∧
      (regenerate M rng calls (initialWorld d)).points = some q ∧
      q.geometry = g.id ∧ q.material = m.id ∧ q.id + 1 = 3 * calls.length ∧
      (regenerate M rng calls (initialWorld d)).scene.filter Object3D.isPoints =
        [Object3D.points q]) ∧
    ∀ k, 1 ≤ k → k < calls.length →
      ∃ g m q,
        (regenerate M rng (calls.take k) (initialWorld d)).geometry = some g ∧
        (regenerate M rng (calls.take k) (initialWorld d)).material = some m ∧
        (regenerate M rng (calls.take k) (initialWorld d)).points = some q ∧
        Before (Event.disposeGeometry g.id) (Event.sceneRemove q.id)
          (regenerate M rng calls (initialWorld d)).events ∧
        Before (Event.disposeMaterial m.id) (Event.sceneRemove q.id)
          (regenerate M rng calls (initialWorld d)).events ∧
        Object3D.points q ∉ (regenerate M rng calls (initialWorld d)).scene := by
  obtain ⟨⟨g, m, q, hg, hm, hq, -, -, i3, r1, r2, hs⟩, hprev⟩ :=
    regenerate_inv M rng d calls hn
  have hid := regenerate_nextId M rng calls (initialWorld d)
  have hq3 : q.id + 1 = 3 * calls.length := by
    rw [i3, hid]; simp [initialWorld, World.setPixelRatio]
  refine ⟨⟨g, m, q, hg, hm, hq, r1, r2, hq3, hs⟩, ?_⟩
  intro k h1 h2
  obtain ⟨g', m', q', e1, e2, e3, e4, b1, b2⟩ := hprev k h1 h2
  refine ⟨g', m', q', e1, e2, e3, b1, b2, ?_⟩
  intro hmem
  have hf : Object3D.points q' ∈
      (regenerate M rng calls (initialWorld d)).scene.filter Object3D.isPoints :=
    List.mem_filter.mpr ⟨hmem, rfl⟩
  rw [hs] at hf
  simp only [List.mem_singleton, Object3D.points.injEq] at hf
  rw [hf] at e4
  omega

/-- Instance of C6: two calls with the initial parameters. -/
theorem C6_single_live_drawable_witness :
    1 ≤ [(params : Params ℝ), params].length ∧
    ((∃ g m q,
      (regenerate realMath (fun _ => 1 / 2) [params, params] (initialWorld 1)).geometry =
        some g ∧
      (regenerate realMath (fun _ => 1 / 2) [params, params] (initialWorld 1)).material =
        some m ∧
      (regenerate realMath (fun _ => 1 / 2) [params, params] (initialWorld 1)).points =
        some q ∧
      q.geometry = g.id ∧ q.material = m.id ∧
      q.id + 1 = 3 * [(params : Params ℝ), params].length ∧
      (regenerate realMath (fun _ => 1 / 2) [params, params] (initialWorld 1)).scene.filter
        Object3D.isPoints = [Object3D.points q]) ∧
    ∀ k, 1 ≤ k → k < [(params : Params ℝ), params].length →
      ∃ g m q,
        (regenerate realMath (fun _ => 1 / 2) ([params, params].take k)
          (initialWorld 1)).geometry = some g ∧
        (regenerate realMath (fun _ => 1 / 2) ([params, params].take k)
          (initialWorld 1)).material = some m ∧
        (regenerate realMath (fun _ => 1 / 2) ([params, params].take k)
          (initialWorld 1)).points = some q ∧
        Before (Event.disposeGeometry g.id) (Event.sceneRemove q.id)
          (regenerate realMath (fun _ => 1 / 2) [params, params] (initialWorld 1)).events ∧
        Before (Event.disposeMaterial m.id) (Event.sceneRemove q.id)
          (regenerate realMath (fun _ => 1 / 2) [params, params] (initialWorld 1)).events ∧
        Object3D.points q ∉
          (regenerate realMath (fun _ => 1 / 2) [params, params] (initialWorld 1)).scene) :=
  ⟨by simp, C6_single_live_drawable realMath (fun _ => 1 / 2) 1 [params, params] (by simp)⟩

/-- C7: two runs of `generateGalaxy` with the same parameter record (with
`branches >= 1` and `lerp` not zero), from any two states and with any two
random streams, give equal position, colour, radius and tilt arrays; if the two
streams agree on the `7 * count` draws that each run consumes, the randomness
and scale arrays are equal as well, so that all six arrays are equal. -/
theorem C7_regeneration_determinism (M : JSMath α) (p : Params α) (rng1 rng2 : Nat → α)
    (w1 w2 : World α) (_hb : 1 ≤ p.branches) (_hl : p.lerp ≠ 0) :
    ∃ g1 g2, (generateGalaxy M p rng1 w1).geometry = some g1 ∧
      (generateGalaxy M p rng2 w2).geometry = some g2 ∧
      g1.position.array = g2.position.array ∧
      g1.color.array = g2.color.array ∧
      g1.aRadii.array = g2.aRadii.array ∧
      g1.axisTilt.array = g2.axisTilt.array ∧
      ((∀ n, n < 7 * p.count → rng1 (w1.cursor + n) = rng2 (w2.cursor + n)) →
        g1.aRandomness.array = g2.aRandomness.array ∧ g1.aScale.array = g2.aScale.array) := by
  have F1 := generateAttributes_filled M p rng1 w1.cursor
  have F2 := generateAttributes_filled M p rng2 w2.cursor
  have L1 := generateAttributes_length M p rng1 w1.cursor
  have L2 := generateAttributes_length M p rng2 w2.cursor
  refine ⟨_, _, generateGalaxy_geometry M p rng1 w1, generateGalaxy_geometry M p rng2 w2,
    ?_, ?_, ?_, ?_, ?_⟩
  · refine ext_triples _ _ p.count (L1 _) (L2 _) (fun i hi => ?_)
    obtain ⟨-, a2, a3, a4, -⟩ := F1 i hi
    obtain ⟨-, b2, b3, b4, -⟩ := F2 i hi
    exact ⟨a2.trans b2.symm, a3.trans b3.symm, a4.trans b4.symm⟩
  · refine ext_triples _ _ p.count (L1 _) (L2 _) (fun i hi => ?_)
    obtain ⟨-, -, -, -, -, -, -, -, a9, a10, a11, -⟩ := F1 i hi
    obtain ⟨-, -, -, -, -, -, -, -, b9, b10, b11, -⟩ := F2 i hi
    exact ⟨a9.trans b9.symm, a10.trans b10.symm, a11.trans b11.symm⟩
  · refine ext_cells _ _ p.count (L1 _) (L2 _) (fun i hi => ?_)
    exact (F1 i hi).1.trans (F2 i hi).1.symm
  · refine ext_cells _ _ p.count (L1 _) (L2 _) (fun i hi => ?_)
    exact (F1 i hi).2.2.2.2.1.trans (F2 i hi).2.2.2.2.1.symm
  · intro hs
    have hs' : ∀ i k, i < p.count → k < 7 →
        rng1 (w1.cursor + 7 * i + k) = rng2 (w2.cursor + 7 * i + k) := by
      intro i k hi hk
      have := hs (7 * i + k) (by omega)
      simpa [Nat.add_assoc] using this
    constructor
    · refine ext_triples _ _ p.count (L1 _) (L2 _) (fun i hi => ?_)
      obtain ⟨-, -, -, -, -, a6, a7, a8, -⟩ := F1 i hi
      obtain ⟨-, -, -, -, -, b6, b7, b8, -⟩ := F2 i hi
      have e0 := hs' i 0 hi (by omega)
      have e1 := hs' i 1 hi (by omega)
      have e2 := hs' i 2 hi (by omega)
      have e3 := hs' i 3 hi (by omega)
      have e4 := hs' i 4 hi (by omega)
      have e5 := hs' i 5 hi (by omega)
      simp only [Nat.add_zero] at e0
      refine ⟨?_, ?_, ?_⟩
      · rw [a6, b6]; simp only [generateSingleLogNormalDistance, e0, e1]
      · rw [a7, b7]; simp only [generateSingleLogNormalDistance, e2, e3]
      · rw [a8, b8]; simp only [generateSingleLogNormalDistance, e4, e5]
    · refine ext_cells _ _ p.count (L1 _) (L2 _) (fun i hi => ?_)
      rw [(F1 i hi).2.2.2.2.2.2.2.2.2.2.2, (F2 i hi).2.2.2.2.2.2.2.2.2.2.2,
        hs' i 6 hi (by omega)]

/-- Instance of C7: the initial parameters, a stream of `1 / 2` and a stream of `1 / 4`. -/
theorem C7_regeneration_determinism_witness :
    (1 ≤ (params : Params ℝ).branches ∧ (params : Params ℝ).lerp ≠ 0) ∧
    ∃ g1 g2,
      (generateGalaxy realMath params (fun _ => 1 / 2) (initialWorld 1)).geometry = some g1 ∧
      (generateGalaxy realMath params (fun _ => 1 / 4) (initialWorld 2)).geometry = some g2 ∧
      g1.position.array = g2.position.array ∧
      g1.color.array = g2.color.array ∧
      g1.aRadii.array = g2.aRadii.array ∧
      g1.axisTilt.array = g2.axisTilt.array ∧
      ((∀ n, n < 7 * (params : Params ℝ).count →
          (fun _ : Nat => (1 / 2 : ℝ)) ((initialWorld (1 : ℝ)).cursor + n) =
            (fun _ : Nat => (1 / 4 : ℝ)) ((initialWorld (2 : ℝ)).cursor + n)) →
        g1.aRandomness.array = g2.aRandomness.array ∧ g1.aScale.array = g2.aScale.array) :=
  ⟨⟨by simp [params], by simp [params]⟩,
    C7_regeneration_determinism realMath params (fun _ => 1 / 2) (fun _ => 1 / 4)
      (initialWorld 1) (initialWorld 2) (by simp [params]) (by simp [params])⟩

/-- C8, as stated, fails: with a device pixel ratio of `3` and the initial
parameters (`size = 40`) the material made by the first call has
`uSize = 40 * 2 = 80`, not `40 * 3`. -/
theorem C8_uSize_counterexample :
    ∃ m, (generateGalaxy realMath params (fun _ => 1 / 2) (initialWorld 3)).material = some m ∧
      m.uSize = 80 ∧ m.uSize ≠ (params : Params ℝ).size * 3 := by
  refine ⟨_, generateGalaxy_material _ _ _ _, ?_, ?_⟩ <;>
    simp [params, initialWorld, World.setPixelRatio] <;> norm_num

/-- C8, amended: when the renderer pixel ratio was last set for a window of
device pixel ratio `d` (at start-up, `initialWorld d`, or by the resize
handler, `resize d w`), every later call of `generateGalaxy` makes a material
with `uSize = size * min(d, 2)` and `uTime = 0`; hence `uSize = size * d` when
`d` is at most `2`, and `uSize` differs from `size * d` when `d` is above `2`
and `size` is not `0`. -/
theorem C8_uniforms_amended (M : JSMath α) (rng : Nat → α) (d : α) (w : World α)
    (calls : List (Params α)) (p : Params α) :
    (∃ m, (generateGalaxy M p rng (regenerate M rng calls (initialWorld d))).material = some m ∧
      m.uSize = p.size * min d 2 ∧ m.uTime = 0 ∧ (d ≤ 2 → m.uSize = p.size * d) ∧
      (2 < d → p.size ≠ 0 → m.uSize ≠ p.size * d)) ∧
    (∃ m, (generateGalaxy M p rng (regenerate M rng calls (resize d w))).material = some m ∧
      m.uSize = p.size * min d 2 ∧ m.uTime = 0 ∧ (d ≤ 2 → m.uSize = p.size * d) ∧
      (2 < d → p.size ≠ 0 → m.uSize ≠ p.size * d)) := by
  have key : ∀ x : α, x = min d 2 →
      p.size * x = p.size * min d 2 ∧ (d ≤ 2 → p.size * x = p.size * d) ∧
        (2 < d → p.size ≠ 0 → p.size * x ≠ p.size * d) := by
    intro x hx
    subst hx
    refine ⟨rfl, fun hd => by rw [min_eq_left hd], fun hd hs heq => ?_⟩
    rw [min_eq_right hd.le] at heq
    have := mul_left_cancel₀ hs heq
    exact absurd this (ne_of_lt hd)
  constructor
  · obtain ⟨k1, k2, k3⟩ := key (regenerate M rng calls (initialWorld d)).pixelRatio
      (by simp [regenerate_pixelRatio, initialWorld, World.setPixelRatio])
    exact ⟨_, generateGalaxy_material _ _ _ _, k1, rfl, k2, k3⟩
  · obtain ⟨k1, k2, k3⟩ := key (regenerate M rng calls (resize d w)).pixelRatio
      (by simp [regenerate_pixelRatio, resize, World.setPixelRatio])
    exact ⟨_, generateGalaxy_material _ _ _ _, k1, rfl, k2, k3⟩

/-- C9, what the code does: for `sigma > 0` the law of the logarithm of the
intermediate value `logNormal` (recovered from the result as `ln(1 / |r|)`),
when the first draw `u` is uniform on `(0, 1)`, is not a normal law, for any
mean `m` and any variance `v`: the logarithm is never below `mu`. -/
theorem C9_log_of_draw_is_not_normal (rng : Nat → ℝ) (c : Nat) (mu sigma : ℝ)
    (hs : 0 < sigma) (m : ℝ) (v : NNReal) :
    (∀ u : ℝ, mu ≤ Real.log
      (1 / |(generateSingleLogNormalDistance realMath (Function.update rng c u) c mu sigma).1|)) ∧
    MeasureTheory.Measure.map
      (fun u : ℝ => Real.log
        (1 / |(generateSingleLogNormalDistance realMath (Function.update rng c u) c mu sigma).1|))
      (MeasureTheory.volume.restrict (Set.Ioo (0 : ℝ) 1)) ≠
        ProbabilityTheory.gaussianReal m v := by
  have hf : (fun u : ℝ => Real.log
      (1 / |(generateSingleLogNormalDistance realMath (Function.update rng c u) c mu sigma).1|)) =
      fun u : ℝ => mu + sigma * Real.sqrt (-2 * Real.log u) := by
    funext u
    rw [log_of_logNormal, Function.update_same]
  have hge : ∀ u : ℝ, mu ≤ mu + sigma * Real.sqrt (-2 * Real.log u) := fun u =>
    le_add_of_nonneg_right (mul_nonneg hs.le (Real.sqrt_nonneg _))
  refine ⟨fun u => ?_, ?_⟩
  · rw [congrFun hf u]; exact hge u
  rw [hf]
  intro heq
  by_cases hv : v = 0
  · -- a point mass: the law of the draw gives no mass to a single point
    subst hv
    rw [ProbabilityTheory.gaussianReal_zero_var] at heq
    have h1 := congrArg (fun μ : MeasureTheory.Measure ℝ => μ {m}) heq
    simp only [MeasureTheory.Measure.dirac_apply_of_mem (Set.mem_singleton m)] at h1
    rw [MeasureTheory.Measure.map_apply (measurable_logLaw mu sigma)
      (MeasurableSet.singleton m),
      MeasureTheory.Measure.restrict_apply
        ((measurable_logLaw mu sigma) (MeasurableSet.singleton m))] at h1
    have hsub : (Set.preimage (fun u : ℝ => mu + sigma * Real.sqrt (-2 * Real.log u)) {m} ∩
        Set.Ioo (0 : ℝ) 1).Subsingleton := by
      rintro a ⟨ha, ha0, ha1⟩ b ⟨hb, hb0, hb1⟩
      simp only [Set.mem_preimage, Set.mem_singleton_iff] at ha hb
      have e1 : sigma * Real.sqrt (-2 * Real.log a) = sigma * Real.sqrt (-2 * Real.log b) := by
        linarith
      have e2 := mul_left_cancel₀ hs.ne' e1
      have la : 0 ≤ -2 * Real.log a := by
        have := Real.log_neg ha0 ha1
        linarith
      have lb : 0 ≤ -2 * Real.log b := by
        have := Real.log_neg hb0 hb1
        linarith
      have e3 := (Real.sqrt_inj la lb).mp e2
      have e4 : Real.log a = Real.log b := by linarith
      exact Real.log_injOn_pos (Set.mem_Ioi.mpr ha0) (Set.mem_Ioi.mpr hb0) e4
    rw [hsub.measure_zero] at h1
    exact zero_ne_one h1
  · -- a proper normal law gives positive mass to the half line below `mu`
    have h1 := congrArg (fun μ : MeasureTheory.Measure ℝ => μ (Set.Iio mu)) heq
    simp only at h1
    rw [MeasureTheory.Measure.map_apply (measurable_logLaw mu sigma) measurableSet_Iio] at h1
    have hempty : Set.preimage (fun u : ℝ => mu + sigma * Real.sqrt (-2 * Real.log u))
        (Set.Iio mu) = ∅ := by
      ext u
      simp only [Set.mem_preimage, Set.mem_Iio, Set.mem_empty_iff_false, iff_false, not_lt]
      exact hge u
    rw [hempty, MeasureTheory.measure_empty] at h1
    have h2 := ProbabilityTheory.gaussianReal_absolutelyContinuous' m hv h1.symm
    rw [Real.volume_Iio] at h2
    exact ENNReal.top_ne_zero h2

/-- Instance of C9: `mu = 1`, `sigma = 1.75` and the normal law of mean `1` and
variance `1.75 ^ 2`. -/
theorem C9_log_of_draw_is_not_normal_witness :
    (0 : ℝ) < 7 / 4 ∧
    ((∀ u : ℝ, 1 ≤ Real.log
      (1 / |(generateSingleLogNormalDistance realMath (Function.update halfStream 0 u)
        0 1 (7 / 4)).1|)) ∧
    MeasureTheory.Measure.map
      (fun u : ℝ => Real.log
        (1 / |(generateSingleLogNormalDistance realMath (Function.update halfStream 0 u)
          0 1 (7 / 4)).1|))
      (MeasureTheory.volume.restrict (Set.Ioo (0 : ℝ) 1)) ≠
        ProbabilityTheory.gaussianReal 1 ⟨(7 / 4) ^ 2, by positivity⟩) :=
  ⟨by norm_num,
    C9_log_of_draw_is_not_normal halfStream 0 1 (7 / 4) (by norm_num) 1
      ⟨(7 / 4) ^ 2, by positivity⟩⟩

/-- C10: with `branches >= 1` (and `lerp` not zero), every point `i` with
`i mod branches = 0` has radius `0`, position `(0, 0, 0)`, tilt `0` and exactly
the inside colour; the number of such points below `count` is
`ceil(count / branches)`, which is `count` when `branches = 1`; the attribute
`aRadii`, by which the vertex shader divides, is zero for exactly these points
and at least `1 / 10` for every other point. -/
theorem C10_points_at_the_origin (M : JSMath α) (p : Params α) (rng : Nat → α) (w : World α)
    (hb : 1 ≤ p.branches) (_hl : p.lerp ≠ 0) :
    ∃ g, (generateGalaxy M p rng w).geometry = some g ∧
      (∀ i, i < p.count → i % p.branches = 0 →
        g.aRadii.array[i]? = some 0 ∧
        g.position.array[3 * i]? = some 0 ∧
        g.position.array[3 * i + 1]? = some 0 ∧
        g.position.array[3 * i + 2]? = some 0 ∧
        g.axisTilt.array[i]? = some 0 ∧
        g.color.array[3 * i]? = some p.insideColor.r ∧
        g.color.array[3 * i + 1]? = some p.insideColor.g ∧
        g.color.array[3 * i + 2]? = some p.insideColor.b) ∧
      Nat.count (fun i => i % p.branches = 0) p.count =
        ⌈(p.count : ℚ) / (p.branches : ℚ)⌉₊ ∧
      (p.branches = 1 → Nat.count (fun i => i % p.branches = 0) p.count = p.count) ∧
      (∀ i, i < p.count → ∃ r, g.aRadii.array[i]? = some r ∧
        (r = 0 ↔ i % p.branches = 0) ∧ (i % p.branches ≠ 0 → 1 / 10 ≤ r)) := by
  refine ⟨_, generateGalaxy_geometry M p rng w, ?_, count_branch_origin _ _ hb, ?_, ?_⟩
  · intro i hi h0
    obtain ⟨h1, h2, h3, h4, h5, -, -, -, h9, h10, h11, -⟩ :=
      generateAttributes_filled M p rng w.cursor i hi
    rw [Nat.mul_comm] at h2 h3 h4 h9 h10 h11
    rw [possibleTilts_getD M p _ (Nat.mod_lt _ hb)] at h5
    simp only [h0, Nat.cast_zero, zero_div, mul_zero, zero_mul] at h1 h2 h3 h4 h5 h9 h10 h11
    refine ⟨h1, h2, h3, h4, h5, ?_, ?_, ?_⟩
    · simpa [Color.lerp] using h9
    · simpa [Color.lerp] using h10
    · simpa [Color.lerp] using h11
  · intro h1
    simp [h1, Nat.mod_one]
  · intro i hi
    obtain ⟨h1, -⟩ := generateAttributes_filled M p rng w.cursor i hi
    refine ⟨_, h1, ?_, ?_⟩
    · constructor
      · intro h
        have h' : ((i % p.branches : Nat) : α) = 0 := by
          rcases div_eq_zero_iff.mp h with h | h
          · exact h
          · norm_num at h
        exact_mod_cast h'
      · intro h
        simp [h]
    · intro h
      have h' : (1 : α) ≤ ((i % p.branches : Nat) : α) := by
        exact_mod_cast Nat.one_le_iff_ne_zero.mpr h
      rw [div_le_div_iff_of_pos_right (by norm_num : (0 : α) < 10)]
      exact h'

/-- Instance of C10: the initial parameters. -/
theorem C10_points_at_the_origin_witness :
    (1 ≤ (params : Params ℝ).branches ∧ (params : Params ℝ).lerp ≠ 0) ∧
    ∃ g, (generateGalaxy realMath params (fun _ => 1 / 2) (initialWorld 1)).geometry = some g ∧
      (∀ i, i < (params : Params ℝ).count → i % (params : Params ℝ).branches = 0 →
        g.aRadii.array[i]? = some 0 ∧
        g.position.array[3 * i]? = some 0 ∧
        g.position.array[3 * i + 1]? = some 0 ∧
        g.position.array[3 * i + 2]? = some 0 ∧
        g.axisTilt.array[i]? = some 0 ∧
        g.color.array[3 * i]? = some (params : Params ℝ).insideColor.r ∧
        g.color.array[3 * i + 1]? = some (params : Params ℝ).insideColor.g ∧
        g.color.array[3 * i + 2]? = some (params : Params ℝ).insideColor.b) ∧
      Nat.count (fun i => i % (params : Params ℝ).branches = 0) (params : Params ℝ).count =
        ⌈((params : Params ℝ).count : ℚ) / ((params : Params ℝ).branches : ℚ)⌉₊ ∧
      ((params : Params ℝ).branches = 1 →
        Nat.count (fun i => i % (params : Params ℝ).branches = 0) (params : Params ℝ).count =
          (params : Params ℝ).count) ∧
      (∀ i, i < (params : Params ℝ).count → ∃ r, g.aRadii.array[i]? = some r ∧
        (r = 0 ↔ i % (params : Params ℝ).branches = 0) ∧
        (i % (params : Params ℝ).branches ≠ 0 → 1 / 10 ≤ r)) :=
  ⟨⟨by simp [params], by simp [params]⟩,
    C10_points_at_the_origin realMath params (fun _ => 1 / 2) (initialWorld 1)
      (by simp [params]) (by simp [params])⟩

end DensityWaves
